import Mathlib

/-!
Verification of the joy2-rs input-mapping pipeline.

This file gives a shallow embedding, in Lean 4, of the parts of the
repository that the verified properties talk about:

* `src/mapping/executor.rs` — the `HeldState` reference-counted key
  tracker and the `MappingExecutor` event handlers;
* `src/mapping/config.rs` — the configuration model and its validator;
* `src/backend/keyboard_sendinput.rs` — the allowed-key parser used by
  key-name validation;
* `src/joycon2/controller.rs` — the `Joy2L`/`Joy2R` input-report parser.

Rust `HashMap`s and `HashSet`s are embedded as association lists and
duplicate-free lists; the keyboard and mouse backends are embedded as an
event trace (`Ev`) produced by each operation, with the success of a
backend `key_down` call supplied as an input (`ok`), since the Rust code
branches on it.  `u32::saturating_add` is modelled exactly on `Nat`.
`f32` configuration and stick values are modelled as exact rationals;
the one comparison whose result cannot be expressed in rational
arithmetic (`(x*x + y*y).sqrt() < deadzone`) is modelled over `ℝ` with
`Real.sqrt`.  Logging calls (`info!`, `warn!`, `trace!`, `debug!`) have
no effect on program state and are not modelled; in `cycle_profiles` and
`cycle_sensitivity` the only use of the old/new profile name lookup is
the log message, so those lookups are omitted as well.
-/

namespace Joy2

/-! ## Held-state core (`src/mapping/executor.rs`, `HeldState`) -/

/-- `enum KeySource { Button, Stick }` -/
inductive KeySource
  | button
  | stick
deriving DecidableEq

/-- `MouseButton` of the mouse backend (`src/backend/mod.rs`). -/
inductive MouseBtn
  | left
  | right
  | middle
deriving DecidableEq

/-- One observable backend call.  `keyDown` records whether the backend
call succeeded (`Ok`) — the Rust code branches on this result. -/
inductive Ev
  | keyDown (key : String) (ok : Bool)
  | keyUp (key : String)
  | mouseMove (dx dy : Int)
  | mouseBtnDown (b : MouseBtn)
  | mouseBtnUp (b : MouseBtn)
deriving DecidableEq

/-- An event that is a mouse-backend call (not a keyboard call). -/
def Ev.isMouse : Ev → Prop
  | .mouseMove _ _ => True
  | .mouseBtnDown _ => True
  | .mouseBtnUp _ => True
  | _ => False

instance : DecidablePred Ev.isMouse := fun ev =>
  match ev with
  | .mouseMove _ _ => inferInstanceAs (Decidable True)
  | .mouseBtnDown _ => inferInstanceAs (Decidable True)
  | .mouseBtnUp _ => inferInstanceAs (Decidable True)
  | .keyDown _ _ => inferInstanceAs (Decidable False)
  | .keyUp _ => inferInstanceAs (Decidable False)

/-- `struct SourceCounts { button: u32, stick: u32 }` -/
structure SourceCounts where
  button : Nat
  stick : Nat
deriving DecidableEq

/-- `fn total(&self) -> u32 { self.button + self.stick }` -/
def SourceCounts.total (c : SourceCounts) : Nat := c.button + c.stick

/-- `u32::saturating_add(_, 1)`. -/
def satAdd32 (a : Nat) : Nat := min (a + 1) (2 ^ 32 - 1)

/-- `ButtonType` (`src/mapping/config.rs`). -/
inductive ButtonType
  | A | B | X | Y
  | L | R | ZL | ZR
  | plus | minus | home | capture | chat
  | leftStickClick | rightStickClick
  | dpadUp | dpadDown | dpadLeft | dpadRight
  | SLL | SRL | SLR | SRR
deriving DecidableEq

/-- Association-list lookup, the embedding of `HashMap::get`. -/
def alistLookup {α β : Type} [DecidableEq α] : List (α × β) → α → Option β
  | [], _ => none
  | (k, v) :: rest, a => if a = k then some v else alistLookup rest a

/-- Update (or append) a binding, the embedding of writing through a
`HashMap` entry. -/
def alistSet {α β : Type} [DecidableEq α] : List (α × β) → α → β → List (α × β)
  | [], a, b => [(a, b)]
  | (k, v) :: rest, a, b => if a = k then (k, b) :: rest else (k, v) :: alistSet rest a b

/-- Remove a binding, the embedding of `HashMap::remove` (keys are
unique, so dropping every binding of the key is the same map). -/
def alistRemove {α β : Type} [DecidableEq α] (m : List (α × β)) (a : α) : List (α × β) :=
  m.filter (fun kv => kv.1 ≠ a)

/-- `HashSet::insert`: no-op when the element is already present. -/
def insertUniq {α : Type} [DecidableEq α] (l : List α) (a : α) : List α :=
  if a ∈ l then l else l ++ [a]

/-- `struct HeldState` — buttons physically down, per-key source
counts, and the keys for which a `key_down` has actually been sent. -/
structure HeldState where
  buttons : List ButtonType
  keySources : List (String × SourceCounts)
  keysDown : List String
deriving DecidableEq

/-- `HeldState::default()`. -/
def HeldState.init : HeldState := ⟨[], [], []⟩

/-- Tail of `HeldState::press_key` after the source counter is bumped:
write the entry back; if the previous total was zero attempt
`key_down`, and record the key in `keys_down` only on success. -/
def pressFinish (s : HeldState) (key : String) (entry : SourceCounts) (before : Nat)
    (ok : Bool) : HeldState × List Ev :=
  let s1 : HeldState := { s with keySources := alistSet s.keySources key entry }
  if before = 0 then
    if ok then ({ s1 with keysDown := insertUniq s1.keysDown key }, [Ev.keyDown key true])
    else (s1, [Ev.keyDown key false])
  else (s1, [])

/-- `HeldState::press_key`.  `ok` is the result of the backend
`key_down` call (used only when the call is actually made). -/
def HeldState.pressKey (s : HeldState) (key : String) (src : KeySource) (ok : Bool) :
    HeldState × List Ev :=
  if key = "" then (s, [])
  else
    let entry := (alistLookup s.keySources key).getD ⟨0, 0⟩
    match src with
    | .button => pressFinish s key ⟨satAdd32 entry.button, entry.stick⟩ entry.total ok
    | .stick =>
        if 0 < entry.stick then (s, [])
        else pressFinish s key ⟨entry.button, 1⟩ entry.total ok

/-- Tail of `HeldState::release_key` after a counter was decremented:
when both counters reach zero, send `key_up` iff the key was in
`keys_down`, and drop the entry. -/
def releaseFinish (s : HeldState) (key : String) (entry : SourceCounts) :
    HeldState × List Ev :=
  if entry.total = 0 then
    if key ∈ s.keysDown then
      ({ s with keySources := alistRemove s.keySources key,
                keysDown := s.keysDown.erase key }, [Ev.keyUp key])
    else
      ({ s with keySources := alistRemove s.keySources key }, [])
  else
    ({ s with keySources := alistSet s.keySources key entry }, [])

/-- `HeldState::release_key`. -/
def HeldState.releaseKey (s : HeldState) (key : String) (src : KeySource) :
    HeldState × List Ev :=
  if key = "" then (s, [])
  else
    match alistLookup s.keySources key with
    | none => (s, [])
    | some entry =>
        match src with
        | .button =>
            if 0 < entry.button then releaseFinish s key ⟨entry.button - 1, entry.stick⟩
            else (s, [])
        | .stick =>
            if 0 < entry.stick then releaseFinish s key ⟨entry.button, 0⟩
            else (s, [])

/-- `HeldState::clear_all`: `key_up` every key in `keys_down` (drain),
then clear `key_sources` and `buttons`. -/
def HeldState.clearAll (s : HeldState) : HeldState × List Ev :=
  (HeldState.init, s.keysDown.map Ev.keyUp)

/-- One call into `HeldState` — the alphabet of the sequences the
held-state claims quantify over. -/
inductive HeldOp
  | press (key : String) (src : KeySource) (ok : Bool)
  | release (key : String) (src : KeySource)
  | clear
deriving DecidableEq

/-- Dispatch one operation. -/
def HeldState.step (s : HeldState) : HeldOp → HeldState × List Ev
  | .press k src ok => s.pressKey k src ok
  | .release k src => s.releaseKey k src
  | .clear => s.clearAll

/-- Run a sequence of operations, accumulating the backend trace. -/
def runHeldFrom : HeldState × List Ev → List HeldOp → HeldState × List Ev
  | acc, [] => acc
  | acc, op :: rest =>
      let r := acc.1.step op
      runHeldFrom (r.1, acc.2 ++ r.2) rest

/-- Run a sequence of operations from the initial held state. -/
def runHeld (ops : List HeldOp) : HeldState × List Ev :=
  runHeldFrom (HeldState.init, []) ops

/-- Total reference count of a key (0 when the key has no entry). -/
def refTotal (s : HeldState) (k : String) : Nat :=
  ((alistLookup s.keySources k).getD ⟨0, 0⟩).total

/-- An operation whose backend `key_down` call (if any) succeeds. -/
def HeldOp.keyDownOk : HeldOp → Prop
  | .press _ _ ok => ok = true
  | .release _ _ => True
  | .clear => True

instance : DecidablePred HeldOp.keyDownOk := fun op =>
  match op with
  | .press _ _ ok => inferInstanceAs (Decidable (ok = true))
  | .release _ _ => inferInstanceAs (Decidable True)
  | .clear => inferInstanceAs (Decidable True)

/-- Number of successful `key_down(k)` calls in a trace. -/
def succDowns (tr : List Ev) (k : String) : Nat := tr.count (Ev.keyDown k true)

/-- Number of `key_up(k)` calls in a trace. -/
def ups (tr : List Ev) (k : String) : Nat := tr.count (Ev.keyUp k)

/-- 1 iff the key is currently recorded as down. -/
def indDown (s : HeldState) (k : String) : Nat := if k ∈ s.keysDown then 1 else 0

/-- The `keys_down` set is exactly the set of names with positive
total refcount. -/
def keysDownInv (s : HeldState) : Prop := ∀ k, k ∈ s.keysDown ↔ 0 < refTotal s k

/-- Structural well-formedness maintained by all held-state
operations: `keys_down` is duplicate-free and only holds keys whose
entry has a positive total. -/
def heldWF (s : HeldState) : Prop :=
  s.keysDown.Nodup ∧ ∀ k ∈ s.keysDown, 0 < refTotal s k

/-- In every prefix of the trace, each `key_up(k)` has a distinct
earlier successful `key_down(k)`. -/
def prefixMatched (tr : List Ev) : Prop :=
  ∀ k n, ups (tr.take n) k ≤ succDowns (tr.take n) k

/-- Exact book-keeping between the trace and the current `keys_down`. -/
def balanced (s : HeldState) (tr : List Ev) : Prop :=
  ∀ k, succDowns tr k = ups tr k + indDown s k

/-- The press/press/release/release scenario of the refcount-safety
claim: two distinct buttons both bound to `"w"`. -/
def doublePressOps : List HeldOp :=
  [HeldOp.press "w" KeySource.button true, HeldOp.press "w" KeySource.button true,
   HeldOp.release "w" KeySource.button, HeldOp.release "w" KeySource.button]

/-! ## Configuration model (`src/mapping/config.rs`) -/

/-- `enum StickType` -/
inductive StickType
  | left
  | right
deriving DecidableEq

/-- `enum ControllerSide` -/
inductive ControllerSide
  | left
  | right
deriving DecidableEq

/-- `enum StickMode` -/
inductive StickMode
  | mouse
  | directional
  | disabled
deriving DecidableEq

/-- `enum Action`.  `none`/`keyHold` carry `Option String` exactly as
the Rust enum does after deserialization. -/
inductive Action
  | none (key : Option String)
  | keyHold (key : Option String)
  | mouseMove (dx dy : Int)
  | mouseClick (button : MouseBtn)
  | cycleProfiles
  | cycleSensitivity
  | toggleGyroMouseL
  | toggleGyroMouseR
deriving DecidableEq

/-- `struct DirectionalKeys` -/
structure DirectionalKeys where
  up : String
  down : String
  left : String
  right : String
deriving DecidableEq

/-- `struct StickMapping` (`sensitivity : f32` modelled as `ℚ`). -/
structure StickMapping where
  mode : StickMode
  sensitivity : ℚ
  directions : Option DirectionalKeys
deriving DecidableEq

/-- `struct StickMappings` -/
structure StickMappings where
  left : Option StickMapping
  right : Option StickMapping
deriving DecidableEq

/-- `struct GyroMapping` -/
structure GyroMapping where
  enabled : Bool
  output : String
  sensitivityX : ℚ
  sensitivityY : ℚ
  invertX : Bool
  invertY : Bool
deriving DecidableEq

/-- `struct GyroSettings` -/
structure GyroSettings where
  left : GyroMapping
  right : GyroMapping
deriving DecidableEq

/-- `struct Profile`.  The `HashMap<ButtonType, Vec<Action>>` maps are
embedded as association lists. -/
structure Profile where
  name : String
  description : String
  buttons : List (ButtonType × List Action)
  sticks : StickMappings
  gyro : GyroSettings
  gyroMouseOverridesRight : List (ButtonType × List Action)
  gyroMouseOverridesLeft : List (ButtonType × List Action)
deriving DecidableEq

/-- `struct Settings` (deadzones and sensitivity factors are `f32`,
modelled as `ℚ`). -/
structure Settings where
  leftStickDeadzone : ℚ
  rightStickDeadzone : ℚ
  vibrationEnabled : Bool
  defaultProfile : String
  sensitivityFactor : List ℚ
deriving DecidableEq

/-- `Settings::default()`: deadzones `0.15` (the exact rational
`3/20`, written with `mkRat` so that it evaluates), vibration on,
profile `"base"`, factors `[1.0, 2.0, 3.0]`. -/
def Settings.default : Settings :=
  ⟨mkRat 3 20, mkRat 3 20, true, "base", [1, 2, 3]⟩

/-- `struct Config` -/
structure Config where
  settings : Settings
  profiles : List Profile
deriving DecidableEq

/-- `GyroMapping::default()` -/
def GyroMapping.default : GyroMapping := ⟨false, "mouse", 1, 1, false, false⟩

/-- `GyroSettings::default()` -/
def GyroSettings.default : GyroSettings := ⟨GyroMapping.default, GyroMapping.default⟩

/-- `StickMappings::default()` -/
def StickMappings.default : StickMappings := ⟨Option.none, Option.none⟩

/-! ## Mapping executor (`src/mapping/executor.rs`, `MappingExecutor`) -/

/-- `struct GyroMouseState` -/
structure GyroMouseState where
  leftEnabled : Bool
  rightEnabled : Bool
deriving DecidableEq

/-- `struct StickState` (`f32` coordinates modelled as `ℚ`). -/
structure StickState where
  x : ℚ
  y : ℚ
deriving DecidableEq

/-- The state of `MappingExecutor` (the backends are represented by
the event traces the operations return; `previous_state` is an empty
placeholder struct in the source and is omitted). -/
structure ExecState where
  config : Config
  heldState : HeldState
  currentProfileIndex : Nat
  currentSensitivityIndex : Nat
  gyroMouseState : GyroMouseState
  leftStick : StickState
  rightStick : StickState
deriving DecidableEq

/-- `MappingExecutor::current_profile` -/
def currentProfile (e : ExecState) : Option Profile :=
  e.config.profiles.get? e.currentProfileIndex

/-- `MappingExecutor::get_sensitivity_factor` -/
def getSensitivityFactor (e : ExecState) : ℚ :=
  ((e.config.settings.sensitivityFactor.get? e.currentSensitivityIndex).getD 1)

/-- `MappingExecutor::get_button_actions` (gyro-mouse overrides first,
then the profile's button map). -/
def getButtonActions (e : ExecState) (button : ButtonType) (side : ControllerSide) :
    Option (List Action) :=
  match currentProfile e with
  | Option.none => Option.none
  | some profile =>
      let gyroActive := match side with
        | .left => e.gyroMouseState.leftEnabled
        | .right => e.gyroMouseState.rightEnabled
      let overrideActions :=
        if gyroActive then
          (match side with
            | .left => alistLookup profile.gyroMouseOverridesLeft button
            | .right => alistLookup profile.gyroMouseOverridesRight button)
        else Option.none
      match overrideActions with
      | some actions => some actions
      | Option.none => alistLookup profile.buttons button

/-- `MappingExecutor::button_to_side` -/
def buttonToSide (button : ButtonType) : ControllerSide :=
  match button with
  | .A | .B | .X | .Y | .R | .ZR | .plus | .home
  | .rightStickClick | .SLR | .SRR | .chat => ControllerSide.right
  | _ => ControllerSide.left

/-- `MappingExecutor::cycle_profiles`.  The old/new profile-name
lookups feed only the log line and are omitted. -/
def cycleProfiles (e : ExecState) : ExecState × List Ev :=
  if e.config.profiles.isEmpty then (e, [])
  else
    let e1 := { e with currentProfileIndex :=
      (e.currentProfileIndex + 1) % e.config.profiles.length }
    let r := e1.heldState.clearAll
    ({ e1 with heldState := r.1 }, r.2)

/-- `MappingExecutor::cycle_sensitivity`. -/
def cycleSensitivity (e : ExecState) : ExecState × List Ev :=
  if e.config.settings.sensitivityFactor.isEmpty then (e, [])
  else
    ({ e with currentSensitivityIndex :=
        (e.currentSensitivityIndex + 1) % e.config.settings.sensitivityFactor.length }, [])

/-- `MappingExecutor::toggle_gyro_mouse`. -/
def toggleGyroMouse (e : ExecState) (side : ControllerSide) : ExecState × List Ev :=
  match side with
  | .left =>
      ({ e with gyroMouseState :=
          { e.gyroMouseState with leftEnabled := !e.gyroMouseState.leftEnabled } }, [])
  | .right =>
      ({ e with gyroMouseState :=
          { e.gyroMouseState with rightEnabled := !e.gyroMouseState.rightEnabled } }, [])

/-- `str::trim` on the character sequence (`Char.isWhitespace` agrees
with Rust on the ASCII strings involved).  Implemented on `String.data`
so that it evaluates in the kernel. -/
def trimStr (s : String) : String :=
  ⟨((s.data.dropWhile Char.isWhitespace).reverse.dropWhile Char.isWhitespace).reverse⟩

/-- `str::to_ascii_lowercase` (ASCII-only `Char.toLower`). -/
def lowerStr (s : String) : String := ⟨s.data.map Char.toLower⟩

/-- `str::split(c)` on a character list. -/
def splitChar (c : Char) : List Char → List (List Char)
  | [] => [[]]
  | x :: xs =>
      match splitChar c xs with
      | [] => [[]]
      | g :: gs => if x = c then [] :: g :: gs else (x :: g) :: gs

/-- `str::split(c)` producing strings. -/
def splitOnChar (s : String) (c : Char) : List String :=
  (splitChar c s.data).map (fun l => ⟨l⟩)

/-- `str::contains(c)`. -/
def containsChar (s : String) (c : Char) : Bool :=
  s.data.any (fun x => x = c)

/-- Key-combo split: `key.split('+').map(str::trim).filter(non-empty)`. -/
def splitKeys (key : String) : List String :=
  ((splitOnChar key '+').map trimStr).filter (fun s => s ≠ "")

/-- Press or release every atom of a combo through the held state
(press in order, release in reverse order), with a fixed key source.
The executor passes `ok := true` for `key_down` results: the claims
about the executor do not quantify over backend failures, and the mock
backends always succeed. -/
def comboKeys (hs : HeldState) (keys : List String) (src : KeySource) (pressed : Bool) :
    HeldState × List Ev :=
  if pressed then
    keys.foldl (fun acc k =>
      let r := acc.1.pressKey k src true
      (r.1, acc.2 ++ r.2)) (hs, [])
  else
    keys.reverse.foldl (fun acc k =>
      let r := acc.1.releaseKey k src
      (r.1, acc.2 ++ r.2)) (hs, [])

/-- `MappingExecutor::execute_action`. -/
def executeAction (e : ExecState) (a : Action) (pressed : Bool) (_side : ControllerSide) :
    ExecState × List Ev :=
  match a with
  | .none _ => (e, [])
  | .keyHold key =>
      match key with
      | Option.none => (e, [])
      | some keyName =>
          if keyName = "" then (e, [])
          else
            let r := comboKeys e.heldState (splitKeys keyName) KeySource.button pressed
            ({ e with heldState := r.1 }, r.2)
  | .mouseMove dx dy =>
      if pressed then (e, [Ev.mouseMove dx dy]) else (e, [])
  | .mouseClick b =>
      if pressed then (e, [Ev.mouseBtnDown b]) else (e, [Ev.mouseBtnUp b])
  | .cycleProfiles => if pressed then cycleProfiles e else (e, [])
  | .cycleSensitivity => if pressed then cycleSensitivity e else (e, [])
  | .toggleGyroMouseL => if pressed then toggleGyroMouse e ControllerSide.left else (e, [])
  | .toggleGyroMouseR => if pressed then toggleGyroMouse e ControllerSide.right else (e, [])

/-- The action loop of `MappingExecutor::on_button_pressed`: one-shot
actions (meta actions and `KeyHold`) run only on a fresh press, all
other actions run unconditionally. -/
def runPressActions (e : ExecState) (wasAlreadyPressed : Bool) (side : ControllerSide) :
    List Action → ExecState × List Ev
  | [] => (e, [])
  | a :: rest =>
      let r :=
        match a with
        | .cycleProfiles | .cycleSensitivity | .toggleGyroMouseL | .toggleGyroMouseR =>
            if !wasAlreadyPressed then executeAction e a true side else (e, [])
        | .keyHold _ =>
            if !wasAlreadyPressed then executeAction e a true side else (e, [])
        | _ => executeAction e a true side
      let rest' := runPressActions r.1 wasAlreadyPressed side rest
      (rest'.1, r.2 ++ rest'.2)

/-- `MappingExecutor::on_button_pressed`. -/
def onButtonPressed (e : ExecState) (button : ButtonType) : ExecState × List Ev :=
  let wasAlreadyPressed := button ∈ e.heldState.buttons
  let e1 := { e with heldState :=
    { e.heldState with buttons := insertUniq e.heldState.buttons button } }
  let side := buttonToSide button
  match getButtonActions e1 button side with
  | Option.none => (e1, [])
  | some actions => runPressActions e1 wasAlreadyPressed side actions

/-- The action loop of `MappingExecutor::on_button_released`. -/
def runReleaseActions (e : ExecState) (side : ControllerSide) :
    List Action → ExecState × List Ev
  | [] => (e, [])
  | a :: rest =>
      let r := executeAction e a false side
      let rest' := runReleaseActions r.1 side rest
      (rest'.1, r.2 ++ rest'.2)

/-- `MappingExecutor::on_button_released`. -/
def onButtonReleased (e : ExecState) (button : ButtonType) : ExecState × List Ev :=
  if button ∈ e.heldState.buttons then
    let e1 := { e with heldState :=
      { e.heldState with buttons := e.heldState.buttons.erase button } }
    let side := buttonToSide button
    match getButtonActions e1 button side with
    | Option.none => (e1, [])
    | some actions => runReleaseActions e1 side actions
  else (e, [])

/-- `MappingExecutor::set_stick_key_state`. -/
def setStickKeyState (e : ExecState) (key : String) (pressed : Bool) : ExecState × List Ev :=
  if key = "" then (e, [])
  else
    let r := comboKeys e.heldState (splitKeys key) KeySource.stick pressed
    ({ e with heldState := r.1 }, r.2)

/-- `MappingExecutor::handle_directional_keys` with threshold `0.5`.
Controller Y is inverted: negative Y is up. -/
def handleDirectionalKeys (e : ExecState) (x y : ℚ) (dirs : DirectionalKeys) :
    ExecState × List Ev :=
  let r1 := setStickKeyState e dirs.up (y < -(1 / 2) : Bool)
  let r2 := setStickKeyState r1.1 dirs.down (y > 1 / 2 : Bool)
  let r3 := setStickKeyState r2.1 dirs.left (x < -(1 / 2) : Bool)
  let r4 := setStickKeyState r3.1 dirs.right (x > 1 / 2 : Bool)
  (r4.1, r1.2 ++ r2.2 ++ r3.2 ++ r4.2)

/-- The stick mapping of a profile for one stick. -/
def stickMappingOf (profile : Profile) (stick : StickType) : Option StickMapping :=
  match stick with
  | .left => profile.sticks.left
  | .right => profile.sticks.right

/-- The configured deadzone for one stick side. -/
def stickDeadzone (e : ExecState) (stick : StickType) : ℚ :=
  match stick with
  | .left => e.config.settings.leftStickDeadzone
  | .right => e.config.settings.rightStickDeadzone

/-- The stored stick position for one side. -/
def stickPos (e : ExecState) (stick : StickType) : ℚ × ℚ :=
  match stick with
  | .left => (e.leftStick.x, e.leftStick.y)
  | .right => (e.rightStick.x, e.rightStick.y)

/-- `MappingExecutor::release_directional_keys`. -/
def releaseDirectionalKeys (e : ExecState) (stick : StickType) : ExecState × List Ev :=
  match currentProfile e with
  | Option.none => (e, [])
  | some profile =>
      match stickMappingOf profile stick with
      | Option.none => (e, [])
      | some mapping =>
          match mapping.directions with
          | Option.none => (e, [])
          | some dirs =>
              let r1 := setStickKeyState e dirs.up false
              let r2 := setStickKeyState r1.1 dirs.down false
              let r3 := setStickKeyState r2.1 dirs.left false
              let r4 := setStickKeyState r3.1 dirs.right false
              (r4.1, r1.2 ++ r2.2 ++ r3.2 ++ r4.2)

/-- Truncation toward zero, the rounding of Rust `as i32` on an exact
value within range. -/
def ratTrunc (q : ℚ) : Int := if 0 ≤ q then ⌊q⌋ else ⌈q⌉

/-- `f32 as i32` saturating cast. -/
def toI32Sat (q : ℚ) : Int :=
  max (-(2 ^ 31)) (min (2 ^ 31 - 1) (ratTrunc q))

/-- `sqrt(x*x + y*y)` of the stored f32 stick position, over `ℝ`. -/
noncomputable def stickMagnitude (x y : ℚ) : ℝ :=
  Real.sqrt (((x * x + y * y : ℚ) : ℝ))

/-- The branch of `MappingExecutor::apply_stick_movement` outside the
deadzone. -/
def applyStickMovementActive (e : ExecState) (mapping : StickMapping) (x y : ℚ) :
    ExecState × List Ev :=
  match mapping.mode with
  | .mouse =>
      let dx := toI32Sat (x * mapping.sensitivity * getSensitivityFactor e * 10)
      let dy := toI32Sat (y * mapping.sensitivity * getSensitivityFactor e * 10)
      if dx ≠ 0 ∨ dy ≠ 0 then (e, [Ev.mouseMove dx dy]) else (e, [])
  | .directional =>
      match mapping.directions with
      | some dirs => handleDirectionalKeys e x y dirs
      | Option.none => (e, [])
  | .disabled => (e, [])

open Classical in
/-- `MappingExecutor::apply_stick_movement`.  The deadzone comparison
`(x*x + y*y).sqrt() < deadzone` is over `ℝ`, so this definition is
noncomputable. -/
noncomputable def applyStickMovement (e : ExecState) (stick : StickType) :
    ExecState × List Ev :=
  match currentProfile e with
  | Option.none => (e, [])
  | some profile =>
      match stickMappingOf profile stick with
      | Option.none => (e, [])
      | some mapping =>
          if stickMagnitude (stickPos e stick).1 (stickPos e stick).2 <
              ((stickDeadzone e stick : ℚ) : ℝ) then
            if mapping.mode = StickMode.directional then releaseDirectionalKeys e stick
            else (e, [])
          else
            applyStickMovementActive e mapping (stickPos e stick).1 (stickPos e stick).2

/-! ## Allowed keys (`src/backend/keyboard_sendinput.rs`) -/

/-- `enum AllowedKey` of the SendInput keyboard backend. -/
inductive AllowedKey
  | keyA | keyB | keyC | keyD | keyE | keyF | keyG | keyH | keyI | keyJ | keyK | keyL | keyM
  | keyN | keyO | keyP | keyQ | keyR | keyS | keyT | keyU | keyV | keyW | keyX | keyY | keyZ
  | key0 | key1 | key2 | key3 | key4 | key5 | key6 | key7 | key8 | key9
  | f1 | f2 | f3 | f4 | f5 | f6 | f7 | f8 | f9 | f10 | f11 | f12
  | shift | leftShift | rightShift
  | ctrl | leftCtrl | rightCtrl
  | alt | leftAlt | rightAlt
  | up | down | left | right
  | numpad0 | numpad1 | numpad2 | numpad3 | numpad4
  | numpad5 | numpad6 | numpad7 | numpad8 | numpad9
  | numpadMultiply | numpadAdd | numpadSubtract
  | numpadDivide | numpadDecimal | numpadEnter
  | escape | tab | capsLock | enter | backspace | space
  | insert | delete | home | endKey | pageUp | pageDown
  | minus | equals | leftBracket | rightBracket
  | semicolon | apostrophe | grave | backslash
  | comma | period | slash
deriving DecidableEq

/-- `KeyboardSendInputBackend::parse_allowed_key` (case-insensitive,
trimmed).  `String.map Char.toLower` is ASCII lowering, matching
`to_ascii_lowercase` on the ASCII names involved. -/
def parseAllowedKey (name : String) : Except String AllowedKey :=
  let n := lowerStr (trimStr name)
  if n = "a" then .ok .keyA
  else if n = "b" then .ok .keyB
  else if n = "c" then .ok .keyC
  else if n = "d" then .ok .keyD
  else if n = "e" then .ok .keyE
  else if n = "f" then .ok .keyF
  else if n = "g" then .ok .keyG
  else if n = "h" then .ok .keyH
  else if n = "i" then .ok .keyI
  else if n = "j" then .ok .keyJ
  else if n = "k" then .ok .keyK
  else if n = "l" then .ok .keyL
  else if n = "m" then .ok .keyM
  else if n = "n" then .ok .keyN
  else if n = "o" then .ok .keyO
  else if n = "p" then .ok .keyP
  else if n = "q" then .ok .keyQ
  else if n = "r" then .ok .keyR
  else if n = "s" then .ok .keyS
  else if n = "t" then .ok .keyT
  else if n = "u" then .ok .keyU
  else if n = "v" then .ok .keyV
  else if n = "w" then .ok .keyW
  else if n = "x" then .ok .keyX
  else if n = "y" then .ok .keyY
  else if n = "z" then .ok .keyZ
  else if n = "0" then .ok .key0
  else if n = "1" then .ok .key1
  else if n = "2" then .ok .key2
  else if n = "3" then .ok .key3
  else if n = "4" then .ok .key4
  else if n = "5" then .ok .key5
  else if n = "6" then .ok .key6
  else if n = "7" then .ok .key7
  else if n = "8" then .ok .key8
  else if n = "9" then .ok .key9
  else if n = "f1" then .ok .f1
  else if n = "f2" then .ok .f2
  else if n = "f3" then .ok .f3
  else if n = "f4" then .ok .f4
  else if n = "f5" then .ok .f5
  else if n = "f6" then .ok .f6
  else if n = "f7" then .ok .f7
  else if n = "f8" then .ok .f8
  else if n = "f9" then .ok .f9
  else if n = "f10" then .ok .f10
  else if n = "f11" then .ok .f11
  else if n = "f12" then .ok .f12
  else if n = "shift" then .ok .shift
  else if n = "leftshift" ∨ n = "lshift" then .ok .leftShift
  else if n = "rightshift" ∨ n = "rshift" then .ok .rightShift
  else if n = "ctrl" ∨ n = "control" then .ok .ctrl
  else if n = "leftctrl" ∨ n = "lctrl" ∨ n = "leftcontrol" then .ok .leftCtrl
  else if n = "rightctrl" ∨ n = "rctrl" ∨ n = "rightcontrol" then .ok .rightCtrl
  else if n = "alt" then .ok .alt
  else if n = "leftalt" ∨ n = "lalt" then .ok .leftAlt
  else if n = "rightalt" ∨ n = "ralt" then .ok .rightAlt
  else if n = "up" ∨ n = "uparrow" then .ok .up
  else if n = "down" ∨ n = "downarrow" then .ok .down
  else if n = "left" ∨ n = "leftarrow" then .ok .left
  else if n = "right" ∨ n = "rightarrow" then .ok .right
  else if n = "numpad0" ∨ n = "kp0" then .ok .numpad0
  else if n = "numpad1" ∨ n = "kp1" then .ok .numpad1
  else if n = "numpad2" ∨ n = "kp2" then .ok .numpad2
  else if n = "numpad3" ∨ n = "kp3" then .ok .numpad3
  else if n = "numpad4" ∨ n = "kp4" then .ok .numpad4
  else if n = "numpad5" ∨ n = "kp5" then .ok .numpad5
  else if n = "numpad6" ∨ n = "kp6" then .ok .numpad6
  else if n = "numpad7" ∨ n = "kp7" then .ok .numpad7
  else if n = "numpad8" ∨ n = "kp8" then .ok .numpad8
  else if n = "numpad9" ∨ n = "kp9" then .ok .numpad9
  else if n = "numpadmultiply" ∨ n = "kpmultiply" ∨ n = "kp*" then .ok .numpadMultiply
  else if n = "numpadadd" ∨ n = "kpadd" ∨ n = "kp+" then .ok .numpadAdd
  else if n = "numpadsubtract" ∨ n = "kpsubtract" ∨ n = "kp-" then .ok .numpadSubtract
  else if n = "numpaddivide" ∨ n = "kpdivide" ∨ n = "kp/" then .ok .numpadDivide
  else if n = "numpaddecimal" ∨ n = "kpdecimal" ∨ n = "kp." then .ok .numpadDecimal
  else if n = "numpadenter" ∨ n = "kpenter" then .ok .numpadEnter
  else if n = "escape" ∨ n = "esc" then .ok .escape
  else if n = "tab" then .ok .tab
  else if n = "capslock" ∨ n = "caps" then .ok .capsLock
  else if n = "enter" ∨ n = "return" then .ok .enter
  else if n = "backspace" ∨ n = "back" then .ok .backspace
  else if n = "space" ∨ n = "spacebar" then .ok .space
  else if n = "insert" ∨ n = "ins" then .ok .insert
  else if n = "delete" ∨ n = "del" then .ok .delete
  else if n = "home" then .ok .home
  else if n = "end" then .ok .endKey
  else if n = "pageup" ∨ n = "pgup" then .ok .pageUp
  else if n = "pagedown" ∨ n = "pgdown" then .ok .pageDown
  else if n = "minus" ∨ n = "-" then .ok .minus
  else if n = "equals" ∨ n = "=" then .ok .equals
  else if n = "leftbracket" ∨ n = "[" then .ok .leftBracket
  else if n = "rightbracket" ∨ n = "]" then .ok .rightBracket
  else if n = "semicolon" ∨ n = ";" then .ok .semicolon
  else if n = "apostrophe" ∨ n = "quote" ∨ n = "\x27" then .ok .apostrophe
  else if n = "grave" ∨ n = "\x60" then .ok .grave
  else if n = "backslash" ∨ n = "\\" then .ok .backslash
  else if n = "comma" ∨ n = "," then .ok .comma
  else if n = "period" ∨ n = "." then .ok .period
  else if n = "slash" ∨ n = "/" then .ok .slash
  else .error ("unsupported key: " ++ name)

/-! ## Config validation (`src/mapping/config.rs`, `impl Config`) -/

/-- The `Err(ConfigError::Invalid(..))` sites of `Config::validate`,
represented structurally (the Rust code formats them into strings). -/
inductive ConfigErr
  | leftDeadzoneOutOfRange
  | rightDeadzoneOutOfRange
  | sensitivityNotPositive
  | noProfiles
  | defaultProfileMissing (name : String)
  | invalidKey (key : String) (context : String)
  | missingCycleProfiles (profile : String) (button : ButtonType)
  | missingToggleGyroL (profile : String) (button : ButtonType)
  | missingToggleGyroR (profile : String) (button : ButtonType)
deriving DecidableEq

instance {ε α : Type} [DecidableEq ε] [DecidableEq α] : DecidableEq (Except ε α)
  | .ok a, .ok b =>
      if h : a = b then .isTrue (by rw [h])
      else .isFalse (fun hh => h (Except.ok.inj hh))
  | .ok _, .error _ => .isFalse (fun hh => Except.noConfusion hh)
  | .error _, .ok _ => .isFalse (fun hh => Except.noConfusion hh)
  | .error e, .error f =>
      if h : e = f then .isTrue (by rw [h])
      else .isFalse (fun hh => h (Except.error.inj hh))

/-- Short-circuit a list of checks, exactly like `?` in a `for` loop. -/
def exceptFold {α : Type} (f : α → Except ConfigErr Unit) : List α → Except ConfigErr Unit
  | [] => .ok ()
  | a :: rest =>
      match f a with
      | .ok () => exceptFold f rest
      | .error e => .error e

/-- The `{:?}` rendering of a button, used in error contexts. -/
def buttonName : ButtonType → String
  | .A => "A" | .B => "B" | .X => "X" | .Y => "Y"
  | .L => "L" | .R => "R" | .ZL => "ZL" | .ZR => "ZR"
  | .plus => "Plus" | .minus => "Minus" | .home => "Home"
  | .capture => "Capture" | .chat => "Chat"
  | .leftStickClick => "LeftStickClick" | .rightStickClick => "RightStickClick"
  | .dpadUp => "DpadUp" | .dpadDown => "DpadDown"
  | .dpadLeft => "DpadLeft" | .dpadRight => "DpadRight"
  | .SLL => "SLL" | .SRL => "SRL" | .SLR => "SLR" | .SRR => "SRR"

/-- `Config::validate_single_key` (Windows build: a key is valid iff
`parse_allowed_key` accepts it). -/
def validateSingleKey (key : String) (context : String) : Except ConfigErr Unit :=
  match parseAllowedKey key with
  | .ok _ => .ok ()
  | .error _ => .error (ConfigErr.invalidKey key context)

/-- `Config::validate_key`: combos are split on `+` and each nonempty
trimmed part is validated. -/
def validateKey (key : String) (context : String) : Except ConfigErr Unit :=
  if containsChar key '+' then
    exceptFold (fun part =>
      let trimmed := trimStr part
      if trimmed ≠ "" then validateSingleKey trimmed context else .ok ())
      (splitOnChar key '+')
  else validateSingleKey key context

/-- `Config::validate_action`. -/
def validateAction (a : Action) (context : String) : Except ConfigErr Unit :=
  match a with
  | .keyHold key | .none key =>
      match key with
      | some keyName => validateKey keyName context
      | Option.none => .ok ()
  | _ => .ok ()

/-- `Config::validate_profile` (button actions, gyro-override actions,
then stick directional keys).  The Rust method takes `&self` but never
reads it. -/
def validateProfile (profile : Profile) : Except ConfigErr Unit :=
  match exceptFold (fun entry =>
      exceptFold (fun a => validateAction a
        ("profile " ++ profile.name ++ " button " ++ buttonName entry.1)) entry.2)
      profile.buttons with
  | .error e => .error e
  | .ok () =>
  match exceptFold (fun entry =>
      exceptFold (fun a => validateAction a
        ("profile " ++ profile.name ++ " gyro_mouse_overrides_left button " ++
          buttonName entry.1)) entry.2)
      profile.gyroMouseOverridesLeft with
  | .error e => .error e
  | .ok () =>
  match exceptFold (fun entry =>
      exceptFold (fun a => validateAction a
        ("profile " ++ profile.name ++ " gyro_mouse_overrides_right button " ++
          buttonName entry.1)) entry.2)
      profile.gyroMouseOverridesRight with
  | .error e => .error e
  | .ok () =>
  match ((match profile.sticks.left with
    | some mapping =>
        match mapping.directions with
        | some dirs =>
            match validateKey dirs.up ("profile " ++ profile.name ++ " left stick up") with
            | .error e => .error e
            | .ok () =>
            match validateKey dirs.down ("profile " ++ profile.name ++ " left stick down") with
            | .error e => .error e
            | .ok () =>
            match validateKey dirs.left ("profile " ++ profile.name ++ " left stick left") with
            | .error e => .error e
            | .ok () =>
              validateKey dirs.right ("profile " ++ profile.name ++ " left stick right")
        | Option.none => .ok ()
    | Option.none => .ok ()) : Except ConfigErr Unit) with
  | .error e => .error e
  | .ok () =>
  match profile.sticks.right with
  | some mapping =>
      match mapping.directions with
      | some dirs =>
          match validateKey dirs.up ("profile " ++ profile.name ++ " right stick up") with
          | .error e => .error e
          | .ok () =>
          match validateKey dirs.down ("profile " ++ profile.name ++ " right stick down") with
          | .error e => .error e
          | .ok () =>
          match validateKey dirs.left ("profile " ++ profile.name ++ " right stick left") with
          | .error e => .error e
          | .ok () =>
            validateKey dirs.right ("profile " ++ profile.name ++ " right stick right")
      | Option.none => .ok ()
  | Option.none => .ok ()

/-- The buttons bound (anywhere in `profile.buttons`, over all
profiles) to actions satisfying `isM` — the collection pass of
`Config::validate_profile_switching_buttons`, one `HashSet` per meta
action. -/
def collectMetaButtons (c : Config) (isM : Action → Bool) : List ButtonType :=
  c.profiles.foldl (fun acc p =>
    p.buttons.foldl (fun acc entry =>
      entry.2.foldl (fun acc a => if isM a then insertUniq acc entry.1 else acc) acc)
      acc) []

/-- Whether `profile.buttons[button]` holds an action satisfying
`isM` (`map(..).unwrap_or(false)`). -/
def hasActionOn (profile : Profile) (button : ButtonType) (isM : Action → Bool) : Bool :=
  ((alistLookup profile.buttons button).map (fun acts => acts.any isM)).getD false

/-- The per-profile consistency checks of
`Config::validate_profile_switching_buttons`. -/
def checkProfileMeta (c : Config) (profile : Profile) : Except ConfigErr Unit :=
  match exceptFold (fun b =>
      if hasActionOn profile b (fun a => a = Action.cycleProfiles) then .ok ()
      else .error (ConfigErr.missingCycleProfiles profile.name b))
      (collectMetaButtons c (fun a => a = Action.cycleProfiles)) with
  | .error e => .error e
  | .ok () =>
  match exceptFold (fun b =>
      if hasActionOn profile b (fun a => a = Action.toggleGyroMouseL) then .ok ()
      else .error (ConfigErr.missingToggleGyroL profile.name b))
      (collectMetaButtons c (fun a => a = Action.toggleGyroMouseL)) with
  | .error e => .error e
  | .ok () =>
      exceptFold (fun b =>
        if hasActionOn profile b (fun a => a = Action.toggleGyroMouseR) then .ok ()
        else .error (ConfigErr.missingToggleGyroR profile.name b))
        (collectMetaButtons c (fun a => a = Action.toggleGyroMouseR))

/-- `Config::validate_profile_switching_buttons`. -/
def validatePSB (c : Config) : Except ConfigErr Unit :=
  if c.profiles.length < 2 then .ok ()
  else exceptFold (checkProfileMeta c) c.profiles

/-- The checks of `Config::validate` that precede the per-profile
loop: deadzone ranges, sensitivity positivity, profile non-emptiness,
and existence of the default profile. -/
def preChecks (c : Config) : Except ConfigErr Unit :=
  if c.settings.leftStickDeadzone < 0 ∨ 1 < c.settings.leftStickDeadzone then
    .error ConfigErr.leftDeadzoneOutOfRange
  else if c.settings.rightStickDeadzone < 0 ∨ 1 < c.settings.rightStickDeadzone then
    .error ConfigErr.rightDeadzoneOutOfRange
  else
    match exceptFold (fun factor =>
        if factor ≤ 0 then .error ConfigErr.sensitivityNotPositive else .ok ())
        c.settings.sensitivityFactor with
    | .error e => .error e
    | .ok () =>
        if c.profiles.isEmpty then .error ConfigErr.noProfiles
        else if c.profiles.any (fun p => p.name = c.settings.defaultProfile) then .ok ()
        else .error (ConfigErr.defaultProfileMissing c.settings.defaultProfile)

/-- The per-profile loop of `Config::validate`
(`for profile { self.validate_profile(profile)?; }`), instrumented
with the list of profile names on which `validate_profile` was
invoked. -/
def validateProfilesLoop : List Profile → Except ConfigErr Unit × List String
  | [] => (.ok (), [])
  | p :: rest =>
      match validateProfile p with
      | .ok () =>
          let r := validateProfilesLoop rest
          (r.1, p.name :: r.2)
      | .error e => (.error e, [p.name])

/-- `Config::validate`, instrumented with the list of profiles that
were actually validated (second component). -/
def validate (c : Config) : Except ConfigErr Unit × List String :=
  match preChecks c with
  | .error e => (.error e, [])
  | .ok () =>
      let r := validateProfilesLoop c.profiles
      match r.1 with
      | .error e => (.error e, r.2)
      | .ok () => (validatePSB c, r.2)

/-! ## Input-report parser (`src/joycon2/controller.rs`)

`f32` sensor values are modelled as exact rationals.  The battery
arithmetic is exact even in `f32`: `battery_raw * 100.0` is an integer
below `2^23`, and for every `u16` raw value the `f32` quotient
`battery_raw * 100.0 / 4095.0` lies closer than half an ulp to the
exact rational, whose distance to the nearest half-integer is at least
`1 / 8190 > 2^-13`, so `.round()` (half away from zero) of the `f32`
quotient equals the exact rational rounding, an integer; the stored
`battery_level` therefore only ever holds the integers this model
computes, and all comparisons against it coincide. -/

/-- One payload byte. -/
def Byte : Type := Fin 256

instance : DecidableEq Byte := by unfold Byte; infer_instance

instance : OfNat Byte n := ⟨Fin.ofNat n⟩

/-- Slice indexing after the length guard (`data[i]`); total via a
default that is never used in bounds. -/
def byteAt (data : List Byte) (i : Nat) : Nat := (data.getD i (0 : Byte)).val

/-- `u16::from_le_bytes` / `(lo as u16) | ((hi as u16) << 8)`. -/
def le16 (lo hi : Nat) : Nat := lo + 256 * hi

/-- `i16::from_le_bytes`. -/
def i16le (lo hi : Nat) : Int :=
  let v := le16 lo hi
  if v < 32768 then (v : Int) else (v : Int) - 65536

/-- `u32::from_le_bytes`. -/
def u32le (b0 b1 b2 b3 : Nat) : Nat :=
  b0 + 256 * b1 + 65536 * b2 + 16777216 * b3

/-- `i32::from_le_bytes`. -/
def i32le (b0 b1 b2 b3 : Nat) : Int :=
  let v := u32le b0 b1 b2 b3
  if v < 2 ^ 31 then (v : Int) else (v : Int) - 2 ^ 32

/-- `f32::clamp(lo, hi)` on exact values. -/
def clampQ (q lo hi : ℚ) : ℚ := max lo (min hi q)

/-- `f32 as i16` saturating cast (truncation toward zero). -/
def toI16Sat (q : ℚ) : Int :=
  max (-(2 ^ 15)) (min (2 ^ 15 - 1) (ratTrunc q))

/-- `enum Orientation` -/
inductive Orientation
  | vertical
  | horizontal
deriving DecidableEq

/-- `struct StickCalibration` (u16 raw ADC bounds). -/
structure StickCalibration where
  xMin : Nat
  xMax : Nat
  yMin : Nat
  yMax : Nat
deriving DecidableEq

/-- `StickCalibration::default()` -/
def StickCalibration.default : StickCalibration := ⟨780, 3260, 820, 3250⟩

/-- `types::Stick` -/
structure Stick where
  x : ℚ
  y : ℚ
deriving DecidableEq

/-- `types::Accelerometer` -/
structure Accelerometer where
  x : ℚ
  y : ℚ
  z : ℚ
deriving DecidableEq

/-- `types::Gyroscope` -/
structure Gyroscope where
  x : ℚ
  y : ℚ
  z : ℚ
deriving DecidableEq

/-- `struct MouseData` -/
structure MouseData where
  x : Int
  y : Int
  distance : Nat
deriving DecidableEq

/-- `struct MouseButtons` -/
structure MouseButtons where
  left : Bool
  right : Bool
  scrollX : Int
  scrollY : Int
deriving DecidableEq

/-- `struct LeftButtons` -/
structure LeftButtons where
  zl : Bool
  l : Bool
  minus : Bool
  sll : Bool
  srl : Bool
  left : Bool
  down : Bool
  up : Bool
  right : Bool
  l3 : Bool
  capture : Bool
deriving DecidableEq

/-- `struct RightButtons` -/
structure RightButtons where
  zr : Bool
  r : Bool
  plus : Bool
  slr : Bool
  srr : Bool
  y : Bool
  b : Bool
  x : Bool
  a : Bool
  r3 : Bool
  home : Bool
  chat : Bool
deriving DecidableEq

/-- `struct Joy2L` (battery level is integer-valued, see the section
comment, and modelled as `Nat`). -/
structure Joy2L where
  name : String
  side : String
  orientation : Orientation
  macAddress : String
  buttons : LeftButtons
  analogStick : Stick
  accelerometer : Accelerometer
  gyroscope : Gyroscope
  mouse : MouseData
  mouseBtn : MouseButtons
  timestamp : Nat
  motionTimestamp : Int
  batteryLevel : Nat
  alertSent : Bool
  isConnected : Bool
deriving DecidableEq

/-- `Joy2L::default()` -/
def Joy2L.init : Joy2L :=
  { name := "Joy-Con", side := "Left", orientation := Orientation.vertical,
    macAddress := "",
    buttons := ⟨false, false, false, false, false, false, false, false, false, false, false⟩,
    analogStick := ⟨0, 0⟩, accelerometer := ⟨0, 0, 0⟩, gyroscope := ⟨0, 0, 0⟩,
    mouse := ⟨0, 0, 0⟩, mouseBtn := ⟨false, false, 0, 0⟩,
    timestamp := 0, motionTimestamp := 0, batteryLevel := 100,
    alertSent := false, isConnected := false }

/-- `struct Joy2R` -/
structure Joy2R where
  name : String
  side : String
  orientation : Orientation
  macAddress : String
  buttons : RightButtons
  analogStick : Stick
  accelerometer : Accelerometer
  gyroscope : Gyroscope
  mouse : MouseData
  mouseBtn : MouseButtons
  timestamp : Nat
  motionTimestamp : Int
  batteryLevel : Nat
  alertSent : Bool
  isConnected : Bool
deriving DecidableEq

/-- `Joy2R::default()` -/
def Joy2R.init : Joy2R :=
  { name := "Joy-Con", side := "Right", orientation := Orientation.vertical,
    macAddress := "",
    buttons := ⟨false, false, false, false, false, false, false, false, false, false, false,
      false⟩,
    analogStick := ⟨0, 0⟩, accelerometer := ⟨0, 0, 0⟩, gyroscope := ⟨0, 0, 0⟩,
    mouse := ⟨0, 0, 0⟩, mouseBtn := ⟨false, false, 0, 0⟩,
    timestamp := 0, motionTimestamp := 0, batteryLevel := 100,
    alertSent := false, isConnected := false }

/-- The packed 12-bit raw axis samples of a 3-byte joystick slice. -/
def joyRaw (data : List Byte) : Nat × Nat :=
  (((byteAt data 1) % 16) * 256 + byteAt data 0,
   (byteAt data 2) * 16 + (byteAt data 1) / 16)

/-- `Joy2L::decode_joystick` (also the right side when followed by the
right-side horizontal negation). -/
def decodeJoystick (data : List Byte) (orientation : Orientation) (cal : StickCalibration) :
    ℚ × ℚ :=
  if data.length ≠ 3 then (0, 0)
  else
    let raw := joyRaw data
    let xNorm := clampQ (((raw.1 - cal.xMin : Nat) : ℚ) / ((cal.xMax - cal.xMin : Nat) : ℚ)) 0 1
    let yNorm := 1 - clampQ (((raw.2 - cal.yMin : Nat) : ℚ) / ((cal.yMax - cal.yMin : Nat) : ℚ)) 0 1
    let x := xNorm * 2 - 1
    let y := yNorm * 2 - 1
    match orientation with
    | .vertical => (x, y)
    | .horizontal => (y, x)

/-- `Joy2R::decode_joystick`: horizontal orientation also negates the
swapped x. -/
def decodeJoystickR (data : List Byte) (orientation : Orientation) (cal : StickCalibration) :
    ℚ × ℚ :=
  if data.length ≠ 3 then (0, 0)
  else
    let raw := joyRaw data
    let xNorm := clampQ (((raw.1 - cal.xMin : Nat) : ℚ) / ((cal.xMax - cal.xMin : Nat) : ℚ)) 0 1
    let yNorm := 1 - clampQ (((raw.2 - cal.yMin : Nat) : ℚ) / ((cal.yMax - cal.yMin : Nat) : ℚ)) 0 1
    let x := xNorm * 2 - 1
    let y := yNorm * 2 - 1
    match orientation with
    | .vertical => (x, y)
    | .horizontal => (-y, x)

/-- `decode_scroll` (identical for both sides): centre, normalise to
`±32767`, snap a `±3000` deadzone to zero. -/
def decodeScroll (data : List Byte) (cal : StickCalibration) : Int × Int :=
  if data.length ≠ 3 then (0, 0)
  else
    let raw := joyRaw data
    let xCenter : ℚ := ((cal.xMax + cal.xMin : Nat) : ℚ) / 2
    let yCenter : ℚ := ((cal.yMax + cal.yMin : Nat) : ℚ) / 2
    let x : ℚ := (raw.1 : ℚ) - xCenter
    let y : ℚ := (raw.2 : ℚ) - yCenter
    let xRange : ℚ := ((cal.xMax - cal.xMin : Nat) : ℚ) / 2
    let yRange : ℚ := ((cal.yMax - cal.yMin : Nat) : ℚ) / 2
    let xScroll := toI16Sat (clampQ (x / xRange) (-1) 1 * 32767)
    let yScroll := toI16Sat (clampQ (y / yRange) (-1) 1 * 32767)
    (if xScroll.natAbs < 3000 then 0 else xScroll,
     if yScroll.natAbs < 3000 then 0 else yScroll)

/-- The rounded battery percentage
`(battery_raw as f32 * 100.0 / 4095.0).round()` (exact in `f32`, see
the section comment): `⌊raw·100/4095 + 1/2⌋`. -/
def newBattery (raw : Nat) : Nat := (200 * raw + 4095) / 8190

/-- The raw battery word of a report (`bytes 31–32`, little endian). -/
def batteryRaw (data : List Byte) : Nat := le16 (byteAt data 31) (byteAt data 32)

/-- The battery/alert tail shared by both parsers: update the stored
level only when strictly lower or on the first sample; raise the
low-battery alert (second component counts `notify_low_battery` calls)
when the stored level is below 10 on an already-connected,
not-yet-alerted controller.  Returns
(new level, new alert flag, alert count). -/
def batteryStep (level : Nat) (alertSent : Bool) (isConnected : Bool) (raw : Nat) :
    Nat × Bool × Nat :=
  let nb := newBattery raw
  let level' := if nb < level ∨ isConnected = false then nb else level
  if level' < 10 ∧ isConnected = true ∧ alertSent = false then (level', true, 1)
  else (level', alertSent, 0)

/-- `Joy2L::parse_input_report`.  Returns the new state and the number
of low-battery notifications raised.  Reports shorter than `0x3C`
bytes are dropped. -/
def Joy2L.parseInputReport (s : Joy2L) (data : List Byte) : Joy2L × Nat :=
  if data.length < 0x3C then (s, 0)
  else
    let btnData := (byteAt data 5) * 256 + byteAt data 6
    let joystickData := (data.drop 10).take 3
    let s := if 24 ≤ data.length then
        { s with mouse :=
          { x := i16le (byteAt data 16) (byteAt data 17),
            y := i16le (byteAt data 18) (byteAt data 19),
            distance := if 8 ≤ ((data.drop 16).take 8).length then byteAt data 23
              else s.mouse.distance } }
      else s
    let ts := u32le (byteAt data 0) (byteAt data 1) (byteAt data 2) (byteAt data 3)
    let s := { s with timestamp := ts }
    let mts := i32le (byteAt data 0x2A) (byteAt data 0x2B) (byteAt data 0x2C) (byteAt data 0x2D)
    let s := if 0x2E ≤ data.length then { s with motionTimestamp := mts } else s
    let s := if 0x36 ≤ data.length then
        let accelX := i16le (byteAt data 0x30) (byteAt data 0x31)
        let accelY := i16le (byteAt data 0x32) (byteAt data 0x33)
        let accelZ := i16le (byteAt data 0x34) (byteAt data 0x35)
        { s with accelerometer :=
          { x := -(accelX : ℚ) * (1 / 4096),
            y := -(accelZ : ℚ) * (1 / 4096),
            z := (accelY : ℚ) * (1 / 4096) } }
      else s
    let s := if 0x3C ≤ data.length then
        let gyroX := i16le (byteAt data 0x36) (byteAt data 0x37)
        let gyroY := i16le (byteAt data 0x38) (byteAt data 0x39)
        let gyroZ := i16le (byteAt data 0x3A) (byteAt data 0x3B)
        { s with gyroscope :=
          { x := (gyroX : ℚ) * (360 / 6048),
            y := -(gyroZ : ℚ) * (360 / 6048),
            z := (gyroY : ℚ) * (360 / 6048) } }
      else s
    let s := { s with buttons :=
      { sll := btnData &&& 0x0020 != 0,
        srl := btnData &&& 0x0010 != 0,
        minus := btnData &&& 0x0100 != 0,
        l := btnData &&& 0x0040 != 0,
        zl := btnData &&& 0x0080 != 0,
        left := btnData &&& 0x0008 != 0,
        down := btnData &&& 0x0001 != 0,
        up := btnData &&& 0x0002 != 0,
        right := btnData &&& 0x0004 != 0,
        l3 := btnData &&& 0x0800 != 0,
        capture := btnData &&& 0x2000 != 0 } }
    let stick := decodeJoystick joystickData s.orientation StickCalibration.default
    let s := { s with analogStick := ⟨stick.1, stick.2⟩ }
    let scroll := decodeScroll joystickData StickCalibration.default
    let s := { s with mouseBtn :=
      { left := s.buttons.l, right := s.buttons.zl,
        scrollX := scroll.1, scrollY := scroll.2 } }
    let r := if 33 ≤ data.length then
        batteryStep s.batteryLevel s.alertSent s.isConnected (batteryRaw data)
      else (s.batteryLevel, s.alertSent, 0)
    let s := { s with batteryLevel := r.1, alertSent := r.2.1 }
    ({ s with isConnected := true }, r.2.2)

/-- `Joy2L::update` -/
def Joy2L.update (s : Joy2L) (data : List Byte) : Joy2L × Nat :=
  s.parseInputReport data

/-- `Joy2R::parse_input_report` (right-side byte offsets and
bitmasks). -/
def Joy2R.parseInputReport (s : Joy2R) (data : List Byte) : Joy2R × Nat :=
  if data.length < 0x3C then (s, 0)
  else
    let btnData := (byteAt data 4) * 256 + byteAt data 5
    let joystickData := (data.drop 13).take 3
    let s := if 24 ≤ data.length then
        { s with mouse :=
          { x := i16le (byteAt data 16) (byteAt data 17),
            y := i16le (byteAt data 18) (byteAt data 19),
            distance := if 8 ≤ ((data.drop 16).take 8).length then byteAt data 23
              else s.mouse.distance } }
      else s
    let ts := u32le (byteAt data 0) (byteAt data 1) (byteAt data 2) (byteAt data 3)
    let s := { s with timestamp := ts }
    let mts := i32le (byteAt data 0x2A) (byteAt data 0x2B) (byteAt data 0x2C) (byteAt data 0x2D)
    let s := if 0x2E ≤ data.length then { s with motionTimestamp := mts } else s
    let s := if 0x36 ≤ data.length then
        let accelX := i16le (byteAt data 0x30) (byteAt data 0x31)
        let accelY := i16le (byteAt data 0x32) (byteAt data 0x33)
        let accelZ := i16le (byteAt data 0x34) (byteAt data 0x35)
        { s with accelerometer :=
          { x := -(accelX : ℚ) * (1 / 4096),
            y := -(accelZ : ℚ) * (1 / 4096),
            z := (accelY : ℚ) * (1 / 4096) } }
      else s
    let s := if 0x3C ≤ data.length then
        let gyroX := i16le (byteAt data 0x36) (byteAt data 0x37)
        let gyroY := i16le (byteAt data 0x38) (byteAt data 0x39)
        let gyroZ := i16le (byteAt data 0x3A) (byteAt data 0x3B)
        { s with gyroscope :=
          { x := (gyroX : ℚ) * (360 / 6048),
            y := -(gyroZ : ℚ) * (360 / 6048),
            z := (gyroY : ℚ) * (360 / 6048) } }
      else s
    let s := { s with buttons :=
      { zr := btnData &&& 0x8000 != 0,
        r := btnData &&& 0x4000 != 0,
        plus := btnData &&& 0x0002 != 0,
        slr := btnData &&& 0x2000 != 0,
        srr := btnData &&& 0x1000 != 0,
        y := btnData &&& 0x0100 != 0,
        b := btnData &&& 0x0400 != 0,
        x := btnData &&& 0x0200 != 0,
        a := btnData &&& 0x0800 != 0,
        r3 := btnData &&& 0x0004 != 0,
        home := btnData &&& 0x0010 != 0,
        chat := btnData &&& 0x0040 != 0 } }
    let stick := decodeJoystickR joystickData s.orientation StickCalibration.default
    let s := { s with analogStick := ⟨stick.1, stick.2⟩ }
    let scroll := decodeScroll joystickData StickCalibration.default
    let s := { s with mouseBtn :=
      { left := s.buttons.r, right := s.buttons.zr,
        scrollX := scroll.1, scrollY := scroll.2 } }
    let r := if 33 ≤ data.length then
        batteryStep s.batteryLevel s.alertSent s.isConnected (batteryRaw data)
      else (s.batteryLevel, s.alertSent, 0)
    let s := { s with batteryLevel := r.1, alertSent := r.2.1 }
    ({ s with isConnected := true }, r.2.2)

/-- `Joy2R::update` -/
def Joy2R.update (s : Joy2R) (data : List Byte) : Joy2R × Nat :=
  s.parseInputReport data

/-- Feed a sequence of reports to a left controller, counting all
low-battery notifications raised. -/
def runReportsL (s : Joy2L) (reports : List (List Byte)) : Joy2L × Nat :=
  reports.foldl (fun acc d =>
    let r := acc.1.update d
    (r.1, acc.2 + r.2)) (s, 0)

/-! ## Concrete instances used by individual theorems -/

/-- A profile binding `SLR` to `CycleProfiles` and nothing else. -/
def profileBase : Profile :=
  { name := "base", description := "",
    buttons := [(ButtonType.SLR, [Action.cycleProfiles])],
    sticks := StickMappings.default, gyro := GyroSettings.default,
    gyroMouseOverridesRight := [], gyroMouseOverridesLeft := [] }

/-- A second profile with the same `SLR → CycleProfiles` binding. -/
def profileGame : Profile := { profileBase with name := "game" }

/-- A second profile with no bindings at all. -/
def profileGameEmpty : Profile :=
  { profileBase with name := "game", buttons := [] }

/-- Two profiles, both binding `SLR → CycleProfiles`. -/
def cfgBothSLR : Config := ⟨Settings.default, [profileBase, profileGame]⟩

/-- Two profiles, only the first binding `SLR → CycleProfiles`. -/
def cfgOnlySLR : Config := ⟨Settings.default, [profileBase, profileGameEmpty]⟩

/-- An executor over `cfgBothSLR` currently holding key `"w"` from one
button source. -/
def execHeldW : ExecState :=
  { config := cfgBothSLR,
    heldState := ⟨[], [("w", ⟨1, 0⟩)], ["w"]⟩,
    currentProfileIndex := 0, currentSensitivityIndex := 0,
    gyroMouseState := ⟨false, false⟩, leftStick := ⟨0, 0⟩, rightStick := ⟨0, 0⟩ }

/-- A profile binding button `A` to a left mouse click. -/
def profileClick : Profile :=
  { profileBase with name := "base", buttons := [(ButtonType.A, [Action.mouseClick MouseBtn.left])] }

/-- An executor whose button `A` is already physically pressed, with
`A` bound to `MouseClick{Left}`. -/
def execRepress : ExecState :=
  { config := ⟨Settings.default, [profileClick]⟩,
    heldState := ⟨[ButtonType.A], [], []⟩,
    currentProfileIndex := 0, currentSensitivityIndex := 0,
    gyroMouseState := ⟨false, false⟩, leftStick := ⟨0, 0⟩, rightStick := ⟨0, 0⟩ }

/-- A profile whose button `A` holds the invalid key `"qq"`. -/
def profileBadKey1 : Profile :=
  { profileBase with name := "p1", buttons := [(ButtonType.A, [Action.keyHold (some "qq")])] }

/-- A second profile whose button `A` holds the invalid key `"zz"`. -/
def profileBadKey2 : Profile :=
  { profileBase with name := "p2", buttons := [(ButtonType.A, [Action.keyHold (some "zz")])] }

/-- A config in which both profiles contain a key-name violation. -/
def cfgBadKeys : Config :=
  ⟨{ Settings.default with defaultProfile := "p1" }, [profileBadKey1, profileBadKey2]⟩

/-- A profile mapping the left stick to mouse mode. -/
def profileMouseStick : Profile :=
  { profileBase with buttons := [], sticks := ⟨some ⟨StickMode.mouse, 1, Option.none⟩, Option.none⟩ }

/-- An executor over `profileMouseStick` with the left stick centred
(inside the default deadzone `0.15`). -/
def execStickCentred : ExecState :=
  { config := ⟨Settings.default, [profileMouseStick]⟩,
    heldState := HeldState.init,
    currentProfileIndex := 0, currentSensitivityIndex := 0,
    gyroMouseState := ⟨false, false⟩, leftStick := ⟨0, 0⟩, rightStick := ⟨0, 0⟩ }

/-- A 60-byte all-zero report. -/
def baseReport : List Byte := List.replicate 60 (0 : Byte)

/-- `baseReport` with the given little-endian battery word at bytes
31–32. -/
def reportRaw (lo hi : Byte) : List Byte := (baseReport.set 31 lo).set 32 hi

/-- Report with raw battery 4095. -/
def r4095 : List Byte := reportRaw 255 15

/-- Report with raw battery 2048. -/
def r2048 : List Byte := reportRaw 0 8

/-- Report with raw battery 200. -/
def r200 : List Byte := reportRaw 200 0

/-- A press whose backend call fails, followed by a release and a
`clear_all`. -/
def failedDownOps : List HeldOp :=
  [HeldOp.press "w" KeySource.button false, HeldOp.release "w" KeySource.button,
   HeldOp.clear]

end Joy2

/-! # Theorems -/

namespace Joy2

theorem alistLookup_set_self {α β : Type} [DecidableEq α] (m : List (α × β)) (a : α) (b : β) :
    alistLookup (alistSet m a b) a = some b := by
  induction m with
  | nil => simp [alistSet, alistLookup]
  | cons kv rest ih =>
      obtain ⟨k, v⟩ := kv
      by_cases h : a = k
      · subst h
        simp [alistSet, alistLookup]
      · simp [alistSet, alistLookup, h, ih]

theorem alistLookup_set_ne {α β : Type} [DecidableEq α] (m : List (α × β)) (a : α) (b : β)
    (x : α) (h : x ≠ a) : alistLookup (alistSet m a b) x = alistLookup m x := by
  induction m with
  | nil => simp [alistSet, alistLookup, h]
  | cons kv rest ih =>
      obtain ⟨k, v⟩ := kv
      by_cases hk : a = k
      · subst hk
        simp [alistSet, alistLookup, h]
      · by_cases hx : x = k
        · subst hx
          simp [alistSet, alistLookup, hk]
        · simp [alistSet, alistLookup, hk, hx, ih]

theorem alistLookup_remove_self {α β : Type} [DecidableEq α] (m : List (α × β)) (a : α) :
    alistLookup (alistRemove m a) a = none := by
  induction m with
  | nil => simp [alistRemove, alistLookup]
  | cons kv rest ih =>
      obtain ⟨k, v⟩ := kv
      by_cases h : k = a
      · subst h
        simpa [alistRemove, alistLookup] using ih
      · simpa [alistRemove, alistLookup, h, Ne.symm h] using ih

theorem alistLookup_remove_ne {α β : Type} [DecidableEq α] (m : List (α × β)) (a x : α)
    (h : x ≠ a) : alistLookup (alistRemove m a) x = alistLookup m x := by
  induction m with
  | nil => simp [alistRemove, alistLookup]
  | cons kv rest ih =>
      obtain ⟨k, v⟩ := kv
      by_cases hk : k = a
      · subst hk
        simpa [alistRemove, alistLookup, fun hh : x = k => h hh] using ih
      · by_cases hx : x = k
        · subst hx
          simp [alistRemove, alistLookup, hk]
        · simpa [alistRemove, alistLookup, hk, hx] using ih

theorem mem_insertUniq {α : Type} [DecidableEq α] (l : List α) (a x : α) :
    x ∈ insertUniq l a ↔ x ∈ l ∨ x = a := by
  by_cases h : a ∈ l
  · rw [insertUniq, if_pos h]
    exact ⟨Or.inl, fun hx => hx.elim id (fun e => e ▸ h)⟩
  · rw [insertUniq, if_neg h]
    simp

theorem nodup_insertUniq {α : Type} [DecidableEq α] (l : List α) (a : α) (hl : l.Nodup) :
    (insertUniq l a).Nodup := by
  by_cases h : a ∈ l
  · rwa [insertUniq, if_pos h]
  · rw [insertUniq, if_neg h]
    simp [List.nodup_append, hl, h]

/-- The combined induction invariant for refcount safety. -/
theorem pressFinish_inv (s : HeldState) (key : String) (entry : SourceCounts) (before : Nat)
    (hb : before = refTotal s key) (he : 0 < entry.total)
    (h1 : keysDownInv s) (h2 : s.keysDown.Nodup) :
    keysDownInv (pressFinish s key entry before true).1 ∧
      (pressFinish s key entry before true).1.keysDown.Nodup := by
  by_cases h0 : before = 0
  · rw [pressFinish, if_pos h0, if_pos rfl]
    refine ⟨fun k => ?_, nodup_insertUniq _ _ h2⟩
    by_cases hk : k = key
    · subst hk
      simp only [mem_insertUniq, refTotal, alistLookup_set_self, Option.getD_some]
      exact ⟨fun _ => he, fun _ => Or.inr trivial⟩
    · simp only [mem_insertUniq, refTotal, alistLookup_set_ne _ _ _ _ hk, hk, or_false]
      exact h1 k
  · rw [pressFinish, if_neg h0]
    refine ⟨fun k => ?_, h2⟩
    by_cases hk : k = key
    · subst hk
      simp only [refTotal, alistLookup_set_self, Option.getD_some]
      have hmem : k ∈ s.keysDown := (h1 k).2 (hb ▸ Nat.pos_of_ne_zero h0)
      exact ⟨fun _ => he, fun _ => hmem⟩
    · simp only [refTotal, alistLookup_set_ne _ _ _ _ hk]
      exact h1 k

theorem pressKey_inv (s : HeldState) (key : String) (src : KeySource)
    (h1 : keysDownInv s) (h2 : s.keysDown.Nodup) :
    keysDownInv (s.pressKey key src true).1 ∧ (s.pressKey key src true).1.keysDown.Nodup := by
  by_cases hk : key = ""
  · simpa [HeldState.pressKey, hk] using ⟨h1, h2⟩
  · unfold HeldState.pressKey
    rw [if_neg hk]
    cases src with
    | button =>
        dsimp only
        refine pressFinish_inv s key _ _ rfl ?_ h1 h2
        have hpos : 0 < satAdd32 ((alistLookup s.keySources key).getD ⟨0, 0⟩).button := by
          unfold satAdd32
          omega
        simpa [SourceCounts.total] using Nat.lt_of_lt_of_le hpos (Nat.le_add_right _ _)
    | stick =>
        dsimp only
        by_cases hs : 0 < ((alistLookup s.keySources key).getD ⟨0, 0⟩).stick
        · rw [if_pos hs]
          exact ⟨h1, h2⟩
        · rw [if_neg hs]
          refine pressFinish_inv s key _ _ rfl ?_ h1 h2
          simp [SourceCounts.total]

theorem releaseFinish_inv (s : HeldState) (key : String) (entry : SourceCounts)
    (hold : 0 < refTotal s key)
    (h1 : keysDownInv s) (h2 : s.keysDown.Nodup) :
    keysDownInv (releaseFinish s key entry).1 ∧
      (releaseFinish s key entry).1.keysDown.Nodup := by
  by_cases h0 : entry.total = 0
  · rw [releaseFinish, if_pos h0]
    by_cases hmem : key ∈ s.keysDown
    · rw [if_pos hmem]
      refine ⟨fun k => ?_, h2.erase key⟩
      by_cases hk : k = key
      · subst hk
        simp [refTotal, alistLookup_remove_self, h2.mem_erase_iff, SourceCounts.total]
      · simp only [refTotal, alistLookup_remove_ne _ _ _ hk, h2.mem_erase_iff]
        
        exact ⟨fun h => (h1 k).1 h.2, fun h => ⟨hk, (h1 k).2 h⟩⟩
    · rw [if_neg hmem]
      refine ⟨fun k => ?_, h2⟩
      by_cases hk : k = key
      · subst hk
        simp [refTotal, alistLookup_remove_self, hmem, SourceCounts.total]
      · simp only [refTotal, alistLookup_remove_ne _ _ _ hk]
        exact h1 k
  · rw [releaseFinish, if_neg h0]
    refine ⟨fun k => ?_, h2⟩
    by_cases hk : k = key
    · subst hk
      simp only [refTotal, alistLookup_set_self, Option.getD_some]
      have hmem : k ∈ s.keysDown := (h1 k).2 hold
      exact ⟨fun _ => Nat.pos_of_ne_zero h0, fun _ => hmem⟩
    · simp only [refTotal, alistLookup_set_ne _ _ _ _ hk]
      exact h1 k

theorem releaseKey_inv (s : HeldState) (key : String) (src : KeySource)
    (h1 : keysDownInv s) (h2 : s.keysDown.Nodup) :
    keysDownInv (s.releaseKey key src).1 ∧ (s.releaseKey key src).1.keysDown.Nodup := by
  by_cases hk : key = ""
  · simpa [HeldState.releaseKey, hk] using ⟨h1, h2⟩
  · unfold HeldState.releaseKey
    rw [if_neg hk]
    cases src with
    | button =>
        cases hlk : alistLookup s.keySources key with
        | none => exact ⟨h1, h2⟩
        | some entry =>
            have hold : refTotal s key = entry.total := by simp [refTotal, hlk]
            dsimp only
            by_cases hbtn : 0 < entry.button
            · rw [if_pos hbtn]
              refine releaseFinish_inv s key _ ?_ h1 h2
              rw [hold]
              exact Nat.lt_of_lt_of_le hbtn (Nat.le_add_right _ _)
            · rw [if_neg hbtn]
              exact ⟨h1, h2⟩
    | stick =>
        cases hlk : alistLookup s.keySources key with
        | none => exact ⟨h1, h2⟩
        | some entry =>
            have hold : refTotal s key = entry.total := by simp [refTotal, hlk]
            dsimp only
            by_cases hst : 0 < entry.stick
            · rw [if_pos hst]
              refine releaseFinish_inv s key _ ?_ h1 h2
              rw [hold]
              exact Nat.lt_of_lt_of_le hst (Nat.le_add_left _ _)
            · rw [if_neg hst]
              exact ⟨h1, h2⟩

theorem clearAll_inv (s : HeldState) :
    keysDownInv s.clearAll.1 ∧ s.clearAll.1.keysDown.Nodup := by
  constructor
  · intro k
    simp [HeldState.clearAll, HeldState.init, refTotal, alistLookup, SourceCounts.total]
  · simp [HeldState.clearAll, HeldState.init]

theorem step_inv (s : HeldState) (op : HeldOp) (hop : op.keyDownOk)
    (h1 : keysDownInv s) (h2 : s.keysDown.Nodup) :
    keysDownInv (s.step op).1 ∧ (s.step op).1.keysDown.Nodup := by
  cases op with
  | press k src ok =>
      cases hop
      exact pressKey_inv s k src h1 h2
  | release k src => exact releaseKey_inv s k src h1 h2
  | clear => exact clearAll_inv s

theorem runHeldFrom_inv (ops : List HeldOp) :
    ∀ (s : HeldState) (tr : List Ev), (∀ op ∈ ops, op.keyDownOk) →
      keysDownInv s → s.keysDown.Nodup →
        keysDownInv (runHeldFrom (s, tr) ops).1 ∧
          (runHeldFrom (s, tr) ops).1.keysDown.Nodup := by
  induction ops with
  | nil => exact fun s tr _ h1 h2 => ⟨h1, h2⟩
  | cons op rest ih =>
      intro s tr hops h1 h2
      have hstep := step_inv s op (hops op (List.mem_cons_self op rest)) h1 h2
      exact ih _ _ (fun o ho => hops o (List.mem_cons_of_mem op ho)) hstep.1 hstep.2

/-- C1: along every sequence of `press_key`/`release_key` calls whose
backend `key_down` calls all succeed, `keys_down` is exactly the set of
key names with positive total reference count; and the sequence that
presses two buttons both bound to `"w"` and then releases both issues
exactly one `key_down("w")` followed by exactly one `key_up("w")`. -/
theorem held_refcount_safety (ops : List HeldOp) (hok : ∀ op ∈ ops, op.keyDownOk) :
    (∀ k, k ∈ (runHeld ops).1.keysDown ↔ 0 < refTotal (runHeld ops).1 k) ∧
      (runHeld doublePressOps).2 = [Ev.keyDown "w" true, Ev.keyUp "w"] := by
  constructor
  · have := runHeldFrom_inv ops HeldState.init [] hok
      (fun k => by simp [HeldState.init, refTotal, alistLookup, SourceCounts.total])
      (by simp [HeldState.init])
    exact this.1
  · decide

theorem held_refcount_safety_witness :
    (∀ k, k ∈ (runHeld doublePressOps).1.keysDown ↔
      0 < refTotal (runHeld doublePressOps).1 k) ∧
      (runHeld doublePressOps).2 = [Ev.keyDown "w" true, Ev.keyUp "w"] :=
  held_refcount_safety doublePressOps (by decide)

theorem press_button_init (k : String) (hk : k ≠ "") :
    HeldState.init.pressKey k KeySource.button true =
      (⟨[], [(k, ⟨1, 0⟩)], [k]⟩, [Ev.keyDown k true]) := by
  simp [HeldState.pressKey, pressFinish, HeldState.init, alistLookup, alistSet, insertUniq,
    satAdd32, hk, SourceCounts.total]

theorem press_stick_second (k : String) (hk : k ≠ "") :
    (HeldState.mk [] [(k, ⟨1, 0⟩)] [k]).pressKey k KeySource.stick true =
      (⟨[], [(k, ⟨1, 1⟩)], [k]⟩, []) := by
  simp [HeldState.pressKey, pressFinish, alistLookup, alistSet, hk, SourceCounts.total]

theorem release_button_of_both (k : String) (hk : k ≠ "") :
    (HeldState.mk [] [(k, ⟨1, 1⟩)] [k]).releaseKey k KeySource.button =
      (⟨[], [(k, ⟨0, 1⟩)], [k]⟩, []) := by
  simp [HeldState.releaseKey, releaseFinish, alistLookup, alistSet, hk, SourceCounts.total]

theorem release_stick_of_both (k : String) (hk : k ≠ "") :
    (HeldState.mk [] [(k, ⟨1, 1⟩)] [k]).releaseKey k KeySource.stick =
      (⟨[], [(k, ⟨1, 0⟩)], [k]⟩, []) := by
  simp [HeldState.releaseKey, releaseFinish, alistLookup, alistSet, hk, SourceCounts.total]

theorem release_stick_last (k : String) (hk : k ≠ "") :
    (HeldState.mk [] [(k, ⟨0, 1⟩)] [k]).releaseKey k KeySource.stick =
      (⟨[], [], []⟩, [Ev.keyUp k]) := by
  simp [HeldState.releaseKey, releaseFinish, alistRemove, alistLookup, hk, SourceCounts.total,
    List.erase_cons_head, List.filter]

theorem release_button_last (k : String) (hk : k ≠ "") :
    (HeldState.mk [] [(k, ⟨1, 0⟩)] [k]).releaseKey k KeySource.button =
      (⟨[], [], []⟩, [Ev.keyUp k]) := by
  simp [HeldState.releaseKey, releaseFinish, alistRemove, alistLookup, hk, SourceCounts.total,
    List.erase_cons_head, List.filter]

/-- C2: a key claimed once by the Button source and once by the Stick
source stays down when only one source releases (no `key_up`, still in
`keys_down`); the `key_up` is issued exactly on the remaining source's
release, after which both counters are zero (the entry is gone). -/
theorem multi_source_overlap (k : String) (hk : k ≠ "") (r1 r2 : KeySource) (hr : r1 ≠ r2) :
    (((HeldState.init.pressKey k KeySource.button true).1.pressKey k
        KeySource.stick true).1.releaseKey k r1).2 = [] ∧
    k ∈ ((((HeldState.init.pressKey k KeySource.button true).1.pressKey k
        KeySource.stick true).1.releaseKey k r1).1).keysDown ∧
    (((((HeldState.init.pressKey k KeySource.button true).1.pressKey k
        KeySource.stick true).1.releaseKey k r1).1).releaseKey k r2).2 = [Ev.keyUp k] ∧
    refTotal (((((HeldState.init.pressKey k KeySource.button true).1.pressKey k
        KeySource.stick true).1.releaseKey k r1).1).releaseKey k r2).1 k = 0 := by
  rw [press_button_init k hk, press_stick_second k hk]
  cases r1 with
  | button =>
      cases r2 with
      | button => exact absurd rfl hr
      | stick =>
          rw [release_button_of_both k hk]
          rw [release_stick_last k hk]
          refine ⟨rfl, List.mem_singleton_self k, rfl, ?_⟩
          simp [refTotal, alistLookup, SourceCounts.total]
  | stick =>
      cases r2 with
      | stick => exact absurd rfl hr
      | button =>
          rw [release_stick_of_both k hk]
          rw [release_button_last k hk]
          refine ⟨rfl, List.mem_singleton_self k, rfl, ?_⟩
          simp [refTotal, alistLookup, SourceCounts.total]

theorem multi_source_overlap_witness :
    (((HeldState.init.pressKey "w" KeySource.button true).1.pressKey "w"
        KeySource.stick true).1.releaseKey "w" KeySource.button).2 = [] ∧
    "w" ∈ ((((HeldState.init.pressKey "w" KeySource.button true).1.pressKey "w"
        KeySource.stick true).1.releaseKey "w" KeySource.button).1).keysDown ∧
    (((((HeldState.init.pressKey "w" KeySource.button true).1.pressKey "w"
        KeySource.stick true).1.releaseKey "w" KeySource.button).1).releaseKey "w"
        KeySource.stick).2 = [Ev.keyUp "w"] ∧
    refTotal (((((HeldState.init.pressKey "w" KeySource.button true).1.pressKey "w"
        KeySource.stick true).1.releaseKey "w" KeySource.button).1).releaseKey "w"
        KeySource.stick).1 "w" = 0 :=
  multi_source_overlap "w" (by decide) KeySource.button KeySource.stick (by decide)

/-- C3: on a press edge, `CycleProfiles` advances the profile index by
one modulo the number of profiles, empties `keys_down`, and issues a
`key_up` for every key that was in `keys_down`. -/
theorem cycle_profiles_spec (e : ExecState) (side : ControllerSide)
    (h : e.config.profiles ≠ []) :
    (executeAction e Action.cycleProfiles true side).1.currentProfileIndex =
      (e.currentProfileIndex + 1) % e.config.profiles.length ∧
    (executeAction e Action.cycleProfiles true side).1.heldState.keysDown = [] ∧
    ∀ k ∈ e.heldState.keysDown,
      Ev.keyUp k ∈ (executeAction e Action.cycleProfiles true side).2 := by
  have hne : e.config.profiles.isEmpty = false := by
    simpa [List.isEmpty_iff] using h
  unfold executeAction
  dsimp only
  rw [if_pos rfl]
  unfold cycleProfiles
  rw [hne]
  rw [if_neg Bool.false_ne_true]
  dsimp only [HeldState.clearAll, HeldState.init]
  exact ⟨rfl, rfl, fun k hkk => List.mem_map_of_mem _ hkk⟩

theorem cycle_profiles_spec_witness :
    (executeAction execHeldW Action.cycleProfiles true ControllerSide.left).1.currentProfileIndex =
      (execHeldW.currentProfileIndex + 1) % execHeldW.config.profiles.length ∧
    (executeAction execHeldW Action.cycleProfiles true ControllerSide.left).1.heldState.keysDown = [] ∧
    ∀ k ∈ execHeldW.heldState.keysDown,
      Ev.keyUp k ∈ (executeAction execHeldW Action.cycleProfiles true ControllerSide.left).2 :=
  cycle_profiles_spec execHeldW ControllerSide.left (by decide)

/-- C4 (counterexample): with button `A` already physically pressed and
bound to `MouseClick{Left}`, `on_button_pressed(A)` still issues a
mouse-backend `button_down(Left)` call — it is not the claimed no-op. -/
theorem button_repress_counterexample :
    ButtonType.A ∈ execRepress.heldState.buttons ∧
    (onButtonPressed execRepress ButtonType.A).2 = [Ev.mouseBtnDown MouseBtn.left] := by
  decide

theorem runPressActions_already (side : ControllerSide) :
    ∀ (actions : List Action) (e : ExecState),
      (runPressActions e true side actions).1 = e ∧
        ∀ ev ∈ (runPressActions e true side actions).2, ev.isMouse := by
  intro actions
  induction actions with
  | nil => exact fun e => ⟨rfl, by simp [runPressActions]⟩
  | cons a rest ih =>
      intro e
      cases a with
      | none key =>
          unfold runPressActions executeAction
          dsimp only
          refine ⟨(ih e).1, ?_⟩
          simpa using (ih e).2
      | keyHold key =>
          unfold runPressActions
          dsimp only
          rw [if_neg (by simp)]
          refine ⟨(ih e).1, ?_⟩
          simpa using (ih e).2
      | mouseMove dx dy =>
          unfold runPressActions executeAction
          dsimp only
          rw [if_pos rfl]
          refine ⟨(ih e).1, ?_⟩
          intro ev hev
          rcases List.mem_append.mp hev with hev | hev
          · rcases List.mem_singleton.mp hev with rfl
            trivial
          · exact (ih e).2 ev hev
      | mouseClick btn =>
          unfold runPressActions executeAction
          dsimp only
          rw [if_pos rfl]
          refine ⟨(ih e).1, ?_⟩
          intro ev hev
          rcases List.mem_append.mp hev with hev | hev
          · rcases List.mem_singleton.mp hev with rfl
            trivial
          · exact (ih e).2 ev hev
      | cycleProfiles =>
          unfold runPressActions
          dsimp only
          rw [if_neg (by simp)]
          refine ⟨(ih e).1, ?_⟩
          simpa using (ih e).2
      | cycleSensitivity =>
          unfold runPressActions
          dsimp only
          rw [if_neg (by simp)]
          refine ⟨(ih e).1, ?_⟩
          simpa using (ih e).2
      | toggleGyroMouseL =>
          unfold runPressActions
          dsimp only
          rw [if_neg (by simp)]
          refine ⟨(ih e).1, ?_⟩
          simpa using (ih e).2
      | toggleGyroMouseR =>
          unfold runPressActions
          dsimp only
          rw [if_neg (by simp)]
          refine ⟨(ih e).1, ?_⟩
          simpa using (ih e).2

/-- C4 (amended): processing `ButtonPressed(b)` for a button already in
`held_state.buttons` leaves the whole executor state unchanged and
issues no keyboard-backend call — `KeyHold` and meta actions are
skipped — but actions in the fall-through arm (`MouseClick`,
`MouseMove`) are still executed, so mouse-backend calls may be
issued. -/
theorem button_repress_amended (e : ExecState) (b : ButtonType)
    (hb : b ∈ e.heldState.buttons) :
    (onButtonPressed e b).1 = e ∧ ∀ ev ∈ (onButtonPressed e b).2, ev.isMouse := by
  have hins : insertUniq e.heldState.buttons b = e.heldState.buttons := by
    rw [insertUniq, if_pos hb]
  have he1 : ({ e with heldState :=
      { e.heldState with buttons := insertUniq e.heldState.buttons b } }) = e := by
    rw [hins]
  unfold onButtonPressed
  dsimp only
  rw [hins]
  rw [decide_eq_true hb]
  cases hact : getButtonActions { e with heldState :=
      { e.heldState with buttons := e.heldState.buttons } } b (buttonToSide b) with
  | none => exact ⟨rfl, by simp⟩
  | some actions =>
      have := runPressActions_already (buttonToSide b) actions
        { e with heldState := { e.heldState with buttons := e.heldState.buttons } }
      exact this

theorem button_repress_amended_witness :
    (onButtonPressed execRepress ButtonType.A).1 = execRepress ∧
      ∀ ev ∈ (onButtonPressed execRepress ButtonType.A).2, ev.isMouse :=
  button_repress_amended execRepress ButtonType.A (by decide)

theorem exceptFold_ok {α : Type} (f : α → Except ConfigErr Unit) :
    ∀ l : List α, exceptFold f l = .ok () → ∀ x ∈ l, f x = .ok () := by
  intro l
  induction l with
  | nil => intro _ x hx; exact absurd hx (List.not_mem_nil x)
  | cons a rest ih =>
      intro h x hx
      rw [exceptFold] at h
      cases hfa : f a with
      | ok u =>
          cases u
          rw [hfa] at h
          rcases List.mem_cons.mp hx with rfl | hx
          · exact hfa
          · exact ih h x hx
      | error e =>
          rw [hfa] at h
          exact absurd h (by simp)

theorem mem_insertUniq_self {α : Type} [DecidableEq α] (l : List α) (a : α) :
    a ∈ insertUniq l a := (mem_insertUniq l a a).2 (Or.inr rfl)

theorem mem_insertUniq_of_mem {α : Type} [DecidableEq α] (l : List α) (a x : α)
    (h : x ∈ l) : x ∈ insertUniq l a := (mem_insertUniq l a x).2 (Or.inl h)

theorem collectActs_mono (isM : Action → Bool) (b x : ButtonType) :
    ∀ (acts : List Action) (acc : List ButtonType), x ∈ acc →
      x ∈ acts.foldl (fun acc a => if isM a then insertUniq acc b else acc) acc := by
  intro acts
  induction acts with
  | nil => intro acc h; exact h
  | cons a rest ih =>
      intro acc h
      rw [List.foldl_cons]
      by_cases hm : isM a
      · rw [if_pos hm]
        exact ih _ (mem_insertUniq_of_mem _ _ _ h)
      · rw [if_neg hm]
        exact ih _ h

theorem collectActs_adds (isM : Action → Bool) (b : ButtonType) :
    ∀ (acts : List Action) (acc : List ButtonType) (a : Action), a ∈ acts → isM a = true →
      b ∈ acts.foldl (fun acc a => if isM a then insertUniq acc b else acc) acc := by
  intro acts
  induction acts with
  | nil => intro acc a h; exact absurd h (List.not_mem_nil a)
  | cons hd rest ih =>
      intro acc a hmem hM
      rw [List.foldl_cons]
      rcases List.mem_cons.mp hmem with rfl | hmem
      · rw [if_pos hM]
        exact collectActs_mono isM b b rest _ (mem_insertUniq_self _ _)
      · exact ih _ a hmem hM

theorem collectBtns_mono (isM : Action → Bool) (x : ButtonType) :
    ∀ (bs : List (ButtonType × List Action)) (acc : List ButtonType), x ∈ acc →
      x ∈ bs.foldl (fun acc entry =>
        entry.2.foldl (fun acc a => if isM a then insertUniq acc entry.1 else acc) acc) acc := by
  intro bs
  induction bs with
  | nil => intro acc h; exact h
  | cons entry rest ih =>
      intro acc h
      rw [List.foldl_cons]
      exact ih _ (collectActs_mono isM entry.1 x entry.2 acc h)

theorem collectBtns_adds (isM : Action → Bool) (b : ButtonType) :
    ∀ (bs : List (ButtonType × List Action)) (acc : List ButtonType)
      (acts : List Action) (a : Action),
      (b, acts) ∈ bs → a ∈ acts → isM a = true →
      b ∈ bs.foldl (fun acc entry =>
        entry.2.foldl (fun acc a => if isM a then insertUniq acc entry.1 else acc) acc) acc := by
  intro bs
  induction bs with
  | nil => intro acc acts a h; exact absurd h (List.not_mem_nil _)
  | cons entry rest ih =>
      intro acc acts a hmem ha hM
      rw [List.foldl_cons]
      rcases List.mem_cons.mp hmem with heq | hmem
      · cases heq
        exact collectBtns_mono isM b rest _ (collectActs_adds isM b acts acc a ha hM)
      · exact ih _ acts a hmem ha hM

theorem collectProfiles_mono (isM : Action → Bool) (x : ButtonType) :
    ∀ (ps : List Profile) (acc : List ButtonType), x ∈ acc →
      x ∈ ps.foldl (fun acc p =>
        p.buttons.foldl (fun acc entry =>
          entry.2.foldl (fun acc a => if isM a then insertUniq acc entry.1 else acc) acc)
          acc) acc := by
  intro ps
  induction ps with
  | nil => intro acc h; exact h
  | cons p rest ih =>
      intro acc h
      rw [List.foldl_cons]
      exact ih _ (collectBtns_mono isM x p.buttons acc h)

theorem alistLookup_mem {α β : Type} [DecidableEq α] :
    ∀ (m : List (α × β)) (a : α) (b : β), alistLookup m a = some b → (a, b) ∈ m := by
  intro m
  induction m with
  | nil => intro a b h; exact absurd h (by simp [alistLookup])
  | cons kv rest ih =>
      intro a b h
      rw [alistLookup] at h
      by_cases hk : a = kv.1
      · rw [if_pos hk] at h
        cases h
        subst hk
        simp
      · rw [if_neg hk] at h
        exact List.mem_cons_of_mem _ (ih a b h)

theorem hasActionOn_collect (c : Config) (isM : Action → Bool) (p : Profile)
    (b : ButtonType) (hp : p ∈ c.profiles) (hb : hasActionOn p b isM = true) :
    b ∈ collectMetaButtons c isM := by
  unfold hasActionOn at hb
  cases hlk : alistLookup p.buttons b with
  | none => rw [hlk] at hb; exact absurd hb (by simp)
  | some acts =>
      rw [hlk] at hb
      simp only [Option.map_some', Option.getD_some] at hb
      rcases List.any_eq_true.mp hb with ⟨a, ha, hM⟩
      have hmem := alistLookup_mem p.buttons b acts hlk
      unfold collectMetaButtons
      rcases List.append_of_mem hp with ⟨l1, l2, hsplit⟩
      rw [hsplit, List.foldl_append, List.foldl_cons]
      exact collectProfiles_mono isM b l2 _ (collectBtns_adds isM b p.buttons _ acts a hmem ha hM)

theorem checkProfileMeta_folds (c : Config) (p : Profile)
    (h : checkProfileMeta c p = .ok ()) :
    (∀ b ∈ collectMetaButtons c (fun a => a = Action.cycleProfiles),
      hasActionOn p b (fun a => a = Action.cycleProfiles) = true) ∧
    (∀ b ∈ collectMetaButtons c (fun a => a = Action.toggleGyroMouseL),
      hasActionOn p b (fun a => a = Action.toggleGyroMouseL) = true) ∧
    (∀ b ∈ collectMetaButtons c (fun a => a = Action.toggleGyroMouseR),
      hasActionOn p b (fun a => a = Action.toggleGyroMouseR) = true) := by
  unfold checkProfileMeta at h
  cases h1 : exceptFold (fun b =>
      if hasActionOn p b (fun a => a = Action.cycleProfiles) then .ok ()
      else .error (ConfigErr.missingCycleProfiles p.name b))
      (collectMetaButtons c (fun a => a = Action.cycleProfiles)) with
  | error e => rw [h1] at h; exact absurd h (by simp)
  | ok u =>
      cases u
      rw [h1] at h
      cases h2 : exceptFold (fun b =>
          if hasActionOn p b (fun a => a = Action.toggleGyroMouseL) then .ok ()
          else .error (ConfigErr.missingToggleGyroL p.name b))
          (collectMetaButtons c (fun a => a = Action.toggleGyroMouseL)) with
      | error e => rw [h2] at h; exact absurd h (by simp)
      | ok u =>
          cases u
          rw [h2] at h
          refine ⟨fun b hb => ?_, fun b hb => ?_, fun b hb => ?_⟩
          · have := exceptFold_ok _ _ h1 b hb
            by_cases hh : hasActionOn p b (fun a => a = Action.cycleProfiles) = true
            · exact hh
            · rw [if_neg hh] at this
              exact absurd this (by simp)
          · have := exceptFold_ok _ _ h2 b hb
            by_cases hh : hasActionOn p b (fun a => a = Action.toggleGyroMouseL) = true
            · exact hh
            · rw [if_neg hh] at this
              exact absurd this (by simp)
          · have := exceptFold_ok _ _ h b hb
            by_cases hh : hasActionOn p b (fun a => a = Action.toggleGyroMouseR) = true
            · exact hh
            · rw [if_neg hh] at this
              exact absurd this (by simp)

theorem validatePSB_consistent (c : Config) (h2 : 2 ≤ c.profiles.length)
    (hok : validatePSB c = .ok ()) (p : Profile) (hp : p ∈ c.profiles) :
    checkProfileMeta c p = .ok () := by
  unfold validatePSB at hok
  rw [if_neg (by omega)] at hok
  exact exceptFold_ok _ _ hok p hp

theorem validate_ok_psb (c : Config) (h : (validate c).1 = .ok ()) :
    validatePSB c = .ok () := by
  unfold validate at h
  cases hpre : preChecks c with
  | error e => rw [hpre] at h; exact absurd h (by simp)
  | ok u =>
      cases u
      rw [hpre] at h
      dsimp only at h
      cases hloop : (validateProfilesLoop c.profiles).1 with
      | error e => rw [hloop] at h; exact absurd h (by simp)
      | ok u =>
          cases u
          rw [hloop] at h
          exact h

/-- C5: when a config has at least two profiles, validation succeeding
forces every button bound to `CycleProfiles`, `ToggleGyroMouseL`, or
`ToggleGyroMouseR` in some profile to be bound to that action in every
profile; a two-profile config binding `SLR → CycleProfiles` in only one
profile is rejected with an error, while binding it in both passes the
switching-button check. -/
theorem meta_button_consistency :
    (∀ (c : Config), 2 ≤ c.profiles.length → (validate c).1 = .ok () →
      ∀ (b : ButtonType) (p q : Profile), p ∈ c.profiles → q ∈ c.profiles →
        ((hasActionOn p b (fun a => a = Action.cycleProfiles) = true →
          hasActionOn q b (fun a => a = Action.cycleProfiles) = true) ∧
         (hasActionOn p b (fun a => a = Action.toggleGyroMouseL) = true →
          hasActionOn q b (fun a => a = Action.toggleGyroMouseL) = true) ∧
         (hasActionOn p b (fun a => a = Action.toggleGyroMouseR) = true →
          hasActionOn q b (fun a => a = Action.toggleGyroMouseR) = true))) ∧
    (validate cfgOnlySLR).1 =
      .error (ConfigErr.missingCycleProfiles "game" ButtonType.SLR) ∧
    validatePSB cfgBothSLR = .ok () := by
  refine ⟨?_, by decide, by decide⟩
  intro c h2 hval b p q hp hq
  have hpsb := validate_ok_psb c hval
  have hq' := checkProfileMeta_folds c q (validatePSB_consistent c h2 hpsb q hq)
  exact ⟨fun hbp => hq'.1 b (hasActionOn_collect c _ p b hp hbp),
    fun hbp => hq'.2.1 b (hasActionOn_collect c _ p b hp hbp),
    fun hbp => hq'.2.2 b (hasActionOn_collect c _ p b hp hbp)⟩

theorem meta_button_consistency_witness :
    2 ≤ cfgBothSLR.profiles.length ∧
    (validate cfgBothSLR).1 = .ok () ∧
    (hasActionOn profileBase ButtonType.SLR (fun a => a = Action.cycleProfiles) = true →
      hasActionOn profileGame ButtonType.SLR (fun a => a = Action.cycleProfiles) = true) :=
  ⟨by decide, by decide,
    ((meta_button_consistency.1 cfgBothSLR (by decide) (by decide) ButtonType.SLR
      profileBase profileGame (by decide) (by decide)).1)⟩

/-- C6 (counterexample): in a config whose profiles `p1` and `p2` both
contain an invalid key, validation reports only the `p1` violation and
`validate_profile` is never invoked on `p2` (the instrumented list of
validated profiles is exactly `["p1"]`), even though `p2` also fails in
isolation — a failure in an earlier profile does prevent later profiles
from being validated. -/
theorem validate_enumeration_counterexample :
    (validate cfgBadKeys).1 = .error (ConfigErr.invalidKey "qq" "profile p1 button A") ∧
    validateProfile profileBadKey2 =
      .error (ConfigErr.invalidKey "zz" "profile p2 button A") ∧
    (validate cfgBadKeys).2 = ["p1"] ∧
    "p2" ∉ (validate cfgBadKeys).2 := by
  decide

theorem validateProfilesLoop_first_failure (p : Profile) (ps2 : List Profile)
    (err : ConfigErr) (herr : validateProfile p = .error err) :
    ∀ ps1 : List Profile, (∀ q ∈ ps1, validateProfile q = .ok ()) →
      validateProfilesLoop (ps1 ++ p :: ps2) =
        (.error err, ps1.map Profile.name ++ [p.name]) := by
  intro ps1
  induction ps1 with
  | nil =>
      intro _
      rw [List.nil_append, validateProfilesLoop, herr]
      rfl
  | cons q rest ih =>
      intro hok
      rw [List.cons_append, validateProfilesLoop,
        hok q (List.mem_cons_self q rest)]
      rw [ih (fun x hx => hok x (List.mem_cons_of_mem q hx))]
      rfl

/-- C6 (amended): `Config::validate` validates profiles in order and
stops at the first profile that fails, returning the error of that profile;
profiles after the first failing one are not validated (the
instrumented list of validated profiles ends at the failing one),
regardless of their contents. -/
theorem validate_first_failure (c : Config) (ps1 : List Profile) (p : Profile)
    (ps2 : List Profile) (err : ConfigErr)
    (hsplit : c.profiles = ps1 ++ p :: ps2)
    (hpre : preChecks c = .ok ())
    (hok : ∀ q ∈ ps1, validateProfile q = .ok ())
    (herr : validateProfile p = .error err) :
    validate c = (.error err, ps1.map Profile.name ++ [p.name]) := by
  unfold validate
  rw [hpre]
  dsimp only
  rw [hsplit, validateProfilesLoop_first_failure p ps2 err herr ps1 hok]

theorem validate_first_failure_witness :
    validate cfgBadKeys =
      (.error (ConfigErr.invalidKey "qq" "profile p1 button A"), ["p1"]) :=
  validate_first_failure cfgBadKeys [] profileBadKey1 [profileBadKey2]
    (ConfigErr.invalidKey "qq" "profile p1 button A") (by decide) (by decide)
    (by intro q hq; exact absurd hq (List.not_mem_nil q)) (by decide)

/-- C7 (counterexample): a session whose very first report already has
raw battery 200 stores 5 percent — the stored value drops below 10 with
`alert_sent` clear — yet no notification is raised and the flag stays
clear, because the alert check also requires `is_connected`, which is
still false on the first report. -/
theorem battery_first_report_counterexample :
    (runReportsL Joy2L.init [r200]).1.batteryLevel = 5 ∧
    (runReportsL Joy2L.init [r200]).1.batteryLevel < 10 ∧
    (runReportsL Joy2L.init [r200]).1.alertSent = false ∧
    (runReportsL Joy2L.init [r200]).2 = 0 := by
  decide

theorem parse_battery (s : Joy2L) (data : List Byte) (hlen : 60 ≤ data.length) :
    (s.parseInputReport data).1.batteryLevel =
        (batteryStep s.batteryLevel s.alertSent s.isConnected (batteryRaw data)).1 ∧
      (s.parseInputReport data).1.alertSent =
        (batteryStep s.batteryLevel s.alertSent s.isConnected (batteryRaw data)).2.1 ∧
      (s.parseInputReport data).1.isConnected = true ∧
      (s.parseInputReport data).2 =
        (batteryStep s.batteryLevel s.alertSent s.isConnected (batteryRaw data)).2.2 := by
  unfold Joy2L.parseInputReport
  rw [if_neg (by omega)]
  dsimp only
  rw [if_pos (show (24 : Nat) ≤ data.length by omega)]
  rw [if_pos (show (0x2E : Nat) ≤ data.length by omega)]
  rw [if_pos (show (0x36 : Nat) ≤ data.length by omega)]
  rw [if_pos (show (0x3C : Nat) ≤ data.length by omega)]
  rw [if_pos (show (33 : Nat) ≤ data.length by omega)]
  exact ⟨rfl, rfl, rfl, rfl⟩

theorem batteryStep_eq (level : Nat) (alert conn : Bool) (raw : Nat) :
    batteryStep level alert conn raw =
      ((if newBattery raw < level ∨ conn = false then newBattery raw else level),
       (alert || decide ((if newBattery raw < level ∨ conn = false then newBattery raw
            else level) < 10 ∧ conn = true ∧ alert = false)),
       (if (if newBattery raw < level ∨ conn = false then newBattery raw else level) < 10 ∧
            conn = true ∧ alert = false then 1 else 0)) := by
  unfold batteryStep
  dsimp only
  by_cases hc : (if newBattery raw < level ∨ conn = false then newBattery raw
      else level) < 10 ∧ conn = true ∧ alert = false
  · rw [if_pos hc, if_pos hc, decide_eq_true hc, Bool.or_true]
  · rw [if_neg hc, if_neg hc, decide_eq_false hc, Bool.or_false]

theorem update_alert (s : Joy2L) (data : List Byte) :
    ((s.update data).2 = 1 ∧ s.alertSent = false ∧ (s.update data).1.alertSent = true) ∨
      ((s.update data).2 = 0 ∧ (s.update data).1.alertSent = s.alertSent) := by
  by_cases hlen : data.length < 60
  · right
    unfold Joy2L.update Joy2L.parseInputReport
    rw [if_pos hlen]
    exact ⟨rfl, rfl⟩
  · have hb := parse_battery s data (by omega)
    have heq := batteryStep_eq s.batteryLevel s.alertSent s.isConnected (batteryRaw data)
    by_cases hc : (if newBattery (batteryRaw data) < s.batteryLevel ∨ s.isConnected = false
        then newBattery (batteryRaw data) else s.batteryLevel) < 10 ∧
        s.isConnected = true ∧ s.alertSent = false
    · left
      refine ⟨?_, hc.2.2, ?_⟩
      · show (s.parseInputReport data).2 = 1
        rw [hb.2.2.2, heq]
        dsimp only
        rw [if_pos hc]
      · show (s.parseInputReport data).1.alertSent = true
        rw [hb.2.1, heq]
        dsimp only
        rw [decide_eq_true hc, Bool.or_true]
    · right
      constructor
      · show (s.parseInputReport data).2 = 0
        rw [hb.2.2.2, heq]
        dsimp only
        rw [if_neg hc]
      · show (s.parseInputReport data).1.alertSent = s.alertSent
        rw [hb.2.1, heq]
        dsimp only
        rw [decide_eq_false hc, Bool.or_false]

theorem foldl_alert_bound :
    ∀ (reports : List (List Byte)) (s : Joy2L) (n : Nat),
      (s.alertSent = false → n = 0) → n ≤ 1 →
      (reports.foldl (fun acc d =>
        let r := acc.1.update d
        (r.1, acc.2 + r.2)) (s, n)).2 ≤ 1 := by
  intro reports
  induction reports with
  | nil => intro s n _ h2; exact h2
  | cons d rest ih =>
      intro s n h1 h2
      rw [List.foldl_cons]
      dsimp only
      rcases update_alert s d with ⟨hcnt, hflag, hflag'⟩ | ⟨hcnt, hflag'⟩
      · rw [hcnt, h1 hflag]
        exact ih _ _ (fun hf => absurd hf (by rw [hflag']; simp)) (by omega)
      · rw [hcnt]
        exact ih _ _ (fun hf => h1 (hflag' ▸ hf)) h2

/-- C7 (amended): the stored battery percent changes only to the new
rounded reading, and only when that reading is strictly lower than the
stored value or the report is the first of the session; the low-battery
notification fires exactly on a report after which the stored value is
below 10 while the controller was already connected before the report
(so no alert can fire on the very first report of a session) and the
one-shot flag was clear, and the flag records exactly that; at most one
notification is raised over any session; the 4095, 2048, 2048, 200
sequence stores 100, 50, 50, 5 with exactly one alert. -/
theorem battery_monotone_alert :
    (∀ (s : Joy2L) (data : List Byte), 60 ≤ data.length →
      ((s.parseInputReport data).1.batteryLevel ≠ s.batteryLevel →
        (newBattery (batteryRaw data) < s.batteryLevel ∨ s.isConnected = false) ∧
          (s.parseInputReport data).1.batteryLevel = newBattery (batteryRaw data)) ∧
      ((s.parseInputReport data).2 =
        if (s.parseInputReport data).1.batteryLevel < 10 ∧ s.isConnected = true ∧
            s.alertSent = false then 1 else 0) ∧
      ((s.parseInputReport data).1.alertSent = true ↔
        (s.alertSent = true ∨ (s.parseInputReport data).2 = 1))) ∧
    (∀ reports : List (List Byte), (runReportsL Joy2L.init reports).2 ≤ 1) ∧
    (runReportsL Joy2L.init [r4095]).1.batteryLevel = 100 ∧
    (runReportsL Joy2L.init [r4095, r2048]).1.batteryLevel = 50 ∧
    (runReportsL Joy2L.init [r4095, r2048, r2048]).1.batteryLevel = 50 ∧
    (runReportsL Joy2L.init [r4095, r2048, r2048, r200]).1.batteryLevel = 5 ∧
    (runReportsL Joy2L.init [r4095, r2048, r2048, r200]).2 = 1 := by
  refine ⟨?_, ?_, by decide, by decide, by decide, by decide, by decide⟩
  · intro s data hlen
    have hb := parse_battery s data hlen
    have heq := batteryStep_eq s.batteryLevel s.alertSent s.isConnected (batteryRaw data)
    have hlevel : (s.parseInputReport data).1.batteryLevel =
        (if newBattery (batteryRaw data) < s.batteryLevel ∨ s.isConnected = false
          then newBattery (batteryRaw data) else s.batteryLevel) := by
      rw [hb.1, heq]
    refine ⟨?_, ?_, ?_⟩
    · intro hne
      by_cases hc : newBattery (batteryRaw data) < s.batteryLevel ∨ s.isConnected = false
      · exact ⟨hc, by rw [hlevel, if_pos hc]⟩
      · rw [hlevel, if_neg hc] at hne
        exact absurd rfl hne
    · rw [hb.2.2.2, heq, hlevel]
    · rw [hb.2.1, hb.2.2.2, heq]
      dsimp only
      by_cases hc : (if newBattery (batteryRaw data) < s.batteryLevel ∨
          s.isConnected = false then newBattery (batteryRaw data)
          else s.batteryLevel) < 10 ∧ s.isConnected = true ∧ s.alertSent = false
      · rw [decide_eq_true hc, Bool.or_true, if_pos hc]
        simp
      · rw [decide_eq_false hc, Bool.or_false, if_neg hc]
        simp
  · intro reports
    unfold runReportsL
    exact foldl_alert_bound reports Joy2L.init 0 (fun _ => rfl) (by omega)

theorem battery_monotone_alert_witness :
    ((Joy2L.init.parseInputReport r4095).1.batteryLevel ≠ Joy2L.init.batteryLevel →
      (newBattery (batteryRaw r4095) < Joy2L.init.batteryLevel ∨
        Joy2L.init.isConnected = false) ∧
        (Joy2L.init.parseInputReport r4095).1.batteryLevel = newBattery (batteryRaw r4095)) ∧
    ((Joy2L.init.parseInputReport r4095).2 =
      if (Joy2L.init.parseInputReport r4095).1.batteryLevel < 10 ∧
          Joy2L.init.isConnected = true ∧ Joy2L.init.alertSent = false then 1 else 0) ∧
    ((Joy2L.init.parseInputReport r4095).1.alertSent = true ↔
      (Joy2L.init.alertSent = true ∨ (Joy2L.init.parseInputReport r4095).2 = 1)) :=
  battery_monotone_alert.1 Joy2L.init r4095 (by decide)

/-- C8: a report shorter than `0x3C` (60) bytes is dropped silently by
both `Joy2L::update` and `Joy2R::update` — no notification is raised
and every field of the controller snapshot is unchanged. -/
theorem short_report_dropped (sL : Joy2L) (sR : Joy2R) (data : List Byte)
    (h : data.length < 0x3C) :
    sL.update data = (sL, 0) ∧ sR.update data = (sR, 0) := by
  constructor
  · unfold Joy2L.update Joy2L.parseInputReport
    rw [if_pos h]
  · unfold Joy2R.update Joy2R.parseInputReport
    rw [if_pos h]

theorem short_report_dropped_witness :
    Joy2L.init.update [] = (Joy2L.init, 0) ∧ Joy2R.init.update [] = (Joy2R.init, 0) :=
  short_report_dropped Joy2L.init Joy2R.init [] (by decide)

/-- C9: when the stored stick position lies inside the configured
deadzone and the profile maps the stick, `apply_stick_movement` does
nothing in Mouse mode (no `move_relative`, state unchanged) and in
Directional mode performs exactly the Stick-source release of the four
configured directional keys (`release_directional_keys`). -/
theorem stick_deadzone_behaviour (e : ExecState) (stick : StickType) (p : Profile)
    (m : StickMapping) (hp : currentProfile e = some p)
    (hm : stickMappingOf p stick = some m)
    (hdz : stickMagnitude (stickPos e stick).1 (stickPos e stick).2 <
      ((stickDeadzone e stick : ℚ) : ℝ)) :
    (m.mode = StickMode.mouse → applyStickMovement e stick = (e, [])) ∧
    (m.mode = StickMode.directional →
      applyStickMovement e stick = releaseDirectionalKeys e stick) := by
  unfold applyStickMovement
  rw [hp]
  dsimp only
  rw [hm]
  dsimp only
  rw [if_pos hdz]
  constructor
  · intro hmode
    rw [if_neg (by rw [hmode]; exact fun hh => StickMode.noConfusion hh)]
  · intro hmode
    rw [if_pos hmode]

theorem stick_deadzone_behaviour_witness :
    applyStickMovement execStickCentred StickType.left = (execStickCentred, []) := by
  refine (stick_deadzone_behaviour execStickCentred StickType.left profileMouseStick
    ⟨StickMode.mouse, 1, Option.none⟩ rfl rfl ?_).1 rfl
  show Real.sqrt (((0 : ℚ) * 0 + 0 * 0 : ℚ) : ℝ) < ((mkRat 3 20 : ℚ) : ℝ)
  have h0 : ((((0 : ℚ) * 0 + 0 * 0 : ℚ)) : ℝ) = 0 := by norm_num
  rw [h0, Real.sqrt_zero, Rat.mkRat_eq_div]
  norm_num

theorem pressFinish_wf (s : HeldState) (key : String) (entry : SourceCounts) (before : Nat)
    (ok : Bool) (he : 0 < entry.total) (hwf : heldWF s) :
    heldWF (pressFinish s key entry before ok).1 := by
  unfold pressFinish
  by_cases h0 : before = 0
  · rw [if_pos h0]
    cases ok with
    | true =>
        rw [if_pos rfl]
        refine ⟨nodup_insertUniq _ _ hwf.1, fun k hk => ?_⟩
        by_cases hkey : k = key
        · subst hkey
          simpa [refTotal, alistLookup_set_self] using he
        · rcases (mem_insertUniq _ _ _).1 hk with hk | hk
          · simpa [refTotal, alistLookup_set_ne _ _ _ _ hkey] using hwf.2 k hk
          · exact absurd hk hkey
    | false =>
        rw [if_neg (by simp)]
        refine ⟨hwf.1, fun k hk => ?_⟩
        by_cases hkey : k = key
        · subst hkey
          simpa [refTotal, alistLookup_set_self] using he
        · simpa [refTotal, alistLookup_set_ne _ _ _ _ hkey] using hwf.2 k hk
  · rw [if_neg h0]
    refine ⟨hwf.1, fun k hk => ?_⟩
    by_cases hkey : k = key
    · subst hkey
      simpa [refTotal, alistLookup_set_self] using he
    · simpa [refTotal, alistLookup_set_ne _ _ _ _ hkey] using hwf.2 k hk

theorem pressFinish_trace (s : HeldState) (key : String) (entry : SourceCounts) (before : Nat)
    (ok : Bool) (hb : before = refTotal s key) (hwf : heldWF s) :
    ((pressFinish s key entry before ok).2 = [] ∧
      (pressFinish s key entry before ok).1.keysDown = s.keysDown) ∨
    (ok = true ∧ (pressFinish s key entry before ok).2 = [Ev.keyDown key true] ∧
      key ∉ s.keysDown ∧
      (pressFinish s key entry before ok).1.keysDown = insertUniq s.keysDown key) ∨
    (ok = false ∧ (pressFinish s key entry before ok).2 = [Ev.keyDown key false] ∧
      (pressFinish s key entry before ok).1.keysDown = s.keysDown) := by
  unfold pressFinish
  by_cases h0 : before = 0
  · rw [if_pos h0]
    have hnot : key ∉ s.keysDown := fun hmem => by
      have := hwf.2 key hmem
      omega
    cases ok with
    | true =>
        rw [if_pos rfl]
        exact Or.inr (Or.inl ⟨rfl, rfl, hnot, rfl⟩)
    | false =>
        rw [if_neg (by simp)]
        exact Or.inr (Or.inr ⟨rfl, rfl, rfl⟩)
  · rw [if_neg h0]
    exact Or.inl ⟨rfl, rfl⟩

theorem pressKey_wf (s : HeldState) (key : String) (src : KeySource) (ok : Bool)
    (hwf : heldWF s) : heldWF (s.pressKey key src ok).1 := by
  by_cases hk : key = ""
  · simpa [HeldState.pressKey, hk] using hwf
  · unfold HeldState.pressKey
    rw [if_neg hk]
    cases src with
    | button =>
        dsimp only
        refine pressFinish_wf s key _ _ ok ?_ hwf
        have hpos : 0 < satAdd32 ((alistLookup s.keySources key).getD ⟨0, 0⟩).button := by
          unfold satAdd32
          omega
        simpa [SourceCounts.total] using Nat.lt_of_lt_of_le hpos (Nat.le_add_right _ _)
    | stick =>
        dsimp only
        by_cases hs : 0 < ((alistLookup s.keySources key).getD ⟨0, 0⟩).stick
        · rw [if_pos hs]
          exact hwf
        · rw [if_neg hs]
          refine pressFinish_wf s key _ _ ok ?_ hwf
          simp [SourceCounts.total]

theorem pressKey_trace (s : HeldState) (key : String) (src : KeySource) (ok : Bool)
    (hwf : heldWF s) :
    ((s.pressKey key src ok).2 = [] ∧ (s.pressKey key src ok).1.keysDown = s.keysDown) ∨
    (ok = true ∧ (s.pressKey key src ok).2 = [Ev.keyDown key true] ∧ key ∉ s.keysDown ∧
      (s.pressKey key src ok).1.keysDown = insertUniq s.keysDown key) ∨
    (ok = false ∧ (s.pressKey key src ok).2 = [Ev.keyDown key false] ∧
      (s.pressKey key src ok).1.keysDown = s.keysDown) := by
  by_cases hk : key = ""
  · exact Or.inl (by simp [HeldState.pressKey, hk])
  · unfold HeldState.pressKey
    rw [if_neg hk]
    cases src with
    | button =>
        dsimp only
        exact pressFinish_trace s key _ _ ok rfl hwf
    | stick =>
        dsimp only
        by_cases hs : 0 < ((alistLookup s.keySources key).getD ⟨0, 0⟩).stick
        · rw [if_pos hs]
          exact Or.inl ⟨rfl, rfl⟩
        · rw [if_neg hs]
          exact pressFinish_trace s key _ _ ok rfl hwf

theorem releaseFinish_wf (s : HeldState) (key : String) (entry : SourceCounts)
    (hwf : heldWF s) : heldWF (releaseFinish s key entry).1 := by
  unfold releaseFinish
  by_cases h0 : entry.total = 0
  · rw [if_pos h0]
    by_cases hmem : key ∈ s.keysDown
    · rw [if_pos hmem]
      refine ⟨hwf.1.erase key, fun k hk => ?_⟩
      rcases (hwf.1.mem_erase_iff).1 hk with ⟨hne, hk⟩
      simpa [refTotal, alistLookup_remove_ne _ _ _ hne] using hwf.2 k hk
    · rw [if_neg hmem]
      refine ⟨hwf.1, fun k hk => ?_⟩
      have hne : k ≠ key := fun h => hmem (h ▸ hk)
      simpa [refTotal, alistLookup_remove_ne _ _ _ hne] using hwf.2 k hk
  · rw [if_neg h0]
    refine ⟨hwf.1, fun k hk => ?_⟩
    by_cases hkey : k = key
    · subst hkey
      simpa [refTotal, alistLookup_set_self] using Nat.pos_of_ne_zero h0
    · simpa [refTotal, alistLookup_set_ne _ _ _ _ hkey] using hwf.2 k hk

theorem releaseFinish_trace (s : HeldState) (key : String) (entry : SourceCounts) :
    ((releaseFinish s key entry).2 = [] ∧
      (releaseFinish s key entry).1.keysDown = s.keysDown) ∨
    ((releaseFinish s key entry).2 = [Ev.keyUp key] ∧ key ∈ s.keysDown ∧
      (releaseFinish s key entry).1.keysDown = s.keysDown.erase key) := by
  unfold releaseFinish
  by_cases h0 : entry.total = 0
  · rw [if_pos h0]
    by_cases hmem : key ∈ s.keysDown
    · rw [if_pos hmem]
      exact Or.inr ⟨rfl, hmem, rfl⟩
    · rw [if_neg hmem]
      exact Or.inl ⟨rfl, rfl⟩
  · rw [if_neg h0]
    exact Or.inl ⟨rfl, rfl⟩

theorem releaseKey_wf (s : HeldState) (key : String) (src : KeySource)
    (hwf : heldWF s) : heldWF (s.releaseKey key src).1 := by
  by_cases hk : key = ""
  · simpa [HeldState.releaseKey, hk] using hwf
  · unfold HeldState.releaseKey
    rw [if_neg hk]
    cases src with
    | button =>
        cases alistLookup s.keySources key with
        | none => exact hwf
        | some entry =>
            dsimp only
            by_cases hbtn : 0 < entry.button
            · rw [if_pos hbtn]
              exact releaseFinish_wf s key _ hwf
            · rw [if_neg hbtn]
              exact hwf
    | stick =>
        cases alistLookup s.keySources key with
        | none => exact hwf
        | some entry =>
            dsimp only
            by_cases hst : 0 < entry.stick
            · rw [if_pos hst]
              exact releaseFinish_wf s key _ hwf
            · rw [if_neg hst]
              exact hwf

theorem releaseKey_trace (s : HeldState) (key : String) (src : KeySource) :
    ((s.releaseKey key src).2 = [] ∧ (s.releaseKey key src).1.keysDown = s.keysDown) ∨
    ((s.releaseKey key src).2 = [Ev.keyUp key] ∧ key ∈ s.keysDown ∧
      (s.releaseKey key src).1.keysDown = s.keysDown.erase key) := by
  by_cases hk : key = ""
  · exact Or.inl (by simp [HeldState.releaseKey, hk])
  · unfold HeldState.releaseKey
    rw [if_neg hk]
    cases alistLookup s.keySources key with
    | none =>
        cases src with
        | button => exact Or.inl ⟨rfl, rfl⟩
        | stick => exact Or.inl ⟨rfl, rfl⟩
    | some entry =>
        cases src with
        | button =>
            dsimp only
            by_cases hbtn : 0 < entry.button
            · rw [if_pos hbtn]
              exact releaseFinish_trace s key _
            · rw [if_neg hbtn]
              exact Or.inl ⟨rfl, rfl⟩
        | stick =>
            dsimp only
            by_cases hst : 0 < entry.stick
            · rw [if_pos hst]
              exact releaseFinish_trace s key _
            · rw [if_neg hst]
              exact Or.inl ⟨rfl, rfl⟩

theorem succDowns_append (t1 t2 : List Ev) (k : String) :
    succDowns (t1 ++ t2) k = succDowns t1 k + succDowns t2 k :=
  List.count_append _ _ _

theorem ups_append (t1 t2 : List Ev) (k : String) :
    ups (t1 ++ t2) k = ups t1 k + ups t2 k :=
  List.count_append _ _ _

theorem ups_keyDown (key k : String) (ok : Bool) : ups [Ev.keyDown key ok] k = 0 := by
  simp [ups, List.count_eq_zero]

theorem succDowns_keyUp (key k : String) : succDowns [Ev.keyUp key] k = 0 := by
  simp [succDowns, List.count_eq_zero]

theorem succDowns_keyDown_false (key k : String) :
    succDowns [Ev.keyDown key false] k = 0 := by
  simp [succDowns, List.count_eq_zero]

theorem succDowns_keyDown_true (key k : String) :
    succDowns [Ev.keyDown key true] k = if k = key then 1 else 0 := by
  by_cases h : k = key
  · subst h
    simp [succDowns]
  · simp [succDowns, List.count_eq_zero, h]

theorem ups_keyUp (key k : String) : ups [Ev.keyUp key] k = if k = key then 1 else 0 := by
  by_cases h : k = key
  · subst h
    simp [ups]
  · simp [ups, List.count_eq_zero, h]

theorem ups_map_keyUp (l : List String) (k : String) :
    ups (l.map Ev.keyUp) k = l.count k := by
  unfold ups
  exact List.count_map_of_injective l Ev.keyUp (fun a b h => Ev.keyUp.inj h) k

theorem succDowns_map_keyUp (l : List String) (k : String) :
    succDowns (l.map Ev.keyUp) k = 0 := by
  simp [succDowns, List.count_eq_zero, List.mem_map]

theorem count_nodup_ind (l : List String) (hl : l.Nodup) (k : String) :
    l.count k = if k ∈ l then 1 else 0 := by
  by_cases h : k ∈ l
  · rw [if_pos h]
    exact List.count_eq_one_of_mem hl h
  · rw [if_neg h]
    exact List.count_eq_zero_of_not_mem h

theorem ups_take_le (l : List Ev) (n : Nat) (k : String) :
    ups (l.take n) k ≤ ups l k :=
  List.Sublist.count_le (List.take_sublist n l) _

theorem prefixMatched_append (tr ev : List Ev) (s : HeldState)
    (hbal : balanced s tr) (hpre : prefixMatched tr)
    (hev : ∀ k, ups ev k ≤ indDown s k) :
    prefixMatched (tr ++ ev) := by
  intro k n
  rw [List.take_append_eq_append_take, succDowns_append, ups_append]
  have h1 := hpre k n
  by_cases hn : n ≤ tr.length
  · rw [Nat.sub_eq_zero_of_le hn, List.take_zero]
    simpa [ups, succDowns] using h1
  · rw [List.take_of_length_le (by omega)]
    have h2 : ups (ev.take (n - tr.length)) k ≤ indDown s k :=
      Nat.le_trans (ups_take_le ev _ k) (hev k)
    have hb := hbal k
    have h3 := hpre k tr.length
    rw [List.take_length] at h3
    omega

theorem balanced_noop (s s' : HeldState) (tr : List Ev) (h : balanced s tr)
    (hkd : s'.keysDown = s.keysDown) : balanced s' (tr ++ []) := by
  rw [List.append_nil]
  intro k
  have : indDown s' k = indDown s k := by unfold indDown; rw [hkd]
  rw [this]
  exact h k

theorem balanced_keyDown_true (s s' : HeldState) (tr : List Ev) (key : String)
    (h : balanced s tr) (hnot : key ∉ s.keysDown)
    (hkd : s'.keysDown = insertUniq s.keysDown key) :
    balanced s' (tr ++ [Ev.keyDown key true]) := by
  intro k
  rw [succDowns_append, ups_append, succDowns_keyDown_true, ups_keyDown]
  have hb := h k
  by_cases hk : k = key
  · subst hk
    have h1 : indDown s' k = 1 := by
      simp [indDown, hkd, mem_insertUniq]
    have h0 : indDown s k = 0 := by
      simp [indDown, hnot]
    rw [if_pos rfl, h1]
    omega
  · have h1 : indDown s' k = indDown s k := by
      by_cases hmem : k ∈ s.keysDown <;> simp [indDown, hkd, mem_insertUniq, hk, hmem]
    rw [if_neg hk, h1]
    omega

theorem balanced_keyDown_false (s s' : HeldState) (tr : List Ev) (key : String)
    (h : balanced s tr) (hkd : s'.keysDown = s.keysDown) :
    balanced s' (tr ++ [Ev.keyDown key false]) := by
  intro k
  rw [succDowns_append, ups_append, succDowns_keyDown_false, ups_keyDown]
  have h1 : indDown s' k = indDown s k := by unfold indDown; rw [hkd]
  have hb := h k
  omega

theorem balanced_keyUp (s s' : HeldState) (tr : List Ev) (key : String)
    (h : balanced s tr) (hnd : s.keysDown.Nodup) (hmem : key ∈ s.keysDown)
    (hkd : s'.keysDown = s.keysDown.erase key) :
    balanced s' (tr ++ [Ev.keyUp key]) := by
  intro k
  rw [succDowns_append, ups_append, succDowns_keyUp, ups_keyUp]
  have hb := h k
  by_cases hk : k = key
  · subst hk
    have h1 : indDown s' k = 0 := by
      simp [indDown, hkd, hnd.mem_erase_iff]
    have h0 : indDown s k = 1 := by
      simp [indDown, hmem]
    rw [if_pos rfl, h1]
    omega
  · have h1 : indDown s' k = indDown s k := by
      by_cases hm : k ∈ s.keysDown <;>
        simp [indDown, hkd, hnd.mem_erase_iff, hk, hm]
    rw [if_neg hk, h1]
    omega

theorem balanced_clear (s : HeldState) (tr : List Ev) (h : balanced s tr)
    (hnd : s.keysDown.Nodup) :
    balanced HeldState.init (tr ++ s.keysDown.map Ev.keyUp) := by
  intro k
  rw [succDowns_append, ups_append, succDowns_map_keyUp, ups_map_keyUp,
    count_nodup_ind s.keysDown hnd k]
  have hb := h k
  have h0 : indDown HeldState.init k = 0 := by simp [indDown, HeldState.init]
  unfold indDown at *
  omega

theorem step_matched (s : HeldState) (tr : List Ev) (op : HeldOp)
    (hwf : heldWF s) (hbal : balanced s tr) (hpre : prefixMatched tr) :
    heldWF (s.step op).1 ∧ balanced (s.step op).1 (tr ++ (s.step op).2) ∧
      prefixMatched (tr ++ (s.step op).2) := by
  cases op with
  | press key src ok =>
      refine ⟨pressKey_wf s key src ok hwf, ?_⟩
      rcases pressKey_trace s key src ok hwf with ⟨hev, hkd⟩ | ⟨_, hev, hnot, hkd⟩ |
        ⟨_, hev, hkd⟩
      · rw [HeldState.step, hev]
        exact ⟨balanced_noop s _ tr hbal hkd,
          prefixMatched_append tr [] s hbal hpre (fun k => by simp [ups])⟩
      · rw [HeldState.step, hev]
        exact ⟨balanced_keyDown_true s _ tr key hbal hnot hkd,
          prefixMatched_append tr _ s hbal hpre
            (fun k => by rw [ups_keyDown]; exact Nat.zero_le _)⟩
      · rw [HeldState.step, hev]
        exact ⟨balanced_keyDown_false s _ tr key hbal hkd,
          prefixMatched_append tr _ s hbal hpre
            (fun k => by rw [ups_keyDown]; exact Nat.zero_le _)⟩
  | release key src =>
      refine ⟨releaseKey_wf s key src hwf, ?_⟩
      rcases releaseKey_trace s key src with ⟨hev, hkd⟩ | ⟨hev, hmem, hkd⟩
      · rw [HeldState.step, hev]
        exact ⟨balanced_noop s _ tr hbal hkd,
          prefixMatched_append tr [] s hbal hpre (fun k => by simp [ups])⟩
      · rw [HeldState.step, hev]
        refine ⟨balanced_keyUp s _ tr key hbal hwf.1 hmem hkd,
          prefixMatched_append tr _ s hbal hpre (fun k => ?_)⟩
        rw [ups_keyUp]
        by_cases hk : k = key
        · subst hk
          simp [indDown, hmem]
        · rw [if_neg hk]
          exact Nat.zero_le _
  | clear =>
      refine ⟨⟨by simp [HeldState.step, HeldState.clearAll, HeldState.init], ?_⟩, ?_, ?_⟩
      · intro k hk
        exact absurd hk (by simp [HeldState.step, HeldState.clearAll, HeldState.init])
      · exact balanced_clear s tr hbal hwf.1
      · refine prefixMatched_append tr _ s hbal hpre (fun k => ?_)
        show ups (s.keysDown.map Ev.keyUp) k ≤ indDown s k
        rw [ups_map_keyUp, count_nodup_ind s.keysDown hwf.1 k]
        unfold indDown
        exact Nat.le_refl _

theorem runHeldFrom_matched (ops : List HeldOp) :
    ∀ (s : HeldState) (tr : List Ev), heldWF s → balanced s tr → prefixMatched tr →
      heldWF (runHeldFrom (s, tr) ops).1 ∧
        balanced (runHeldFrom (s, tr) ops).1 (runHeldFrom (s, tr) ops).2 ∧
        prefixMatched (runHeldFrom (s, tr) ops).2 := by
  induction ops with
  | nil => exact fun s tr h1 h2 h3 => ⟨h1, h2, h3⟩
  | cons op rest ih =>
      intro s tr h1 h2 h3
      rw [runHeldFrom]
      have hstep := step_matched s tr op h1 h2 h3
      exact ih _ _ hstep.1 hstep.2.1 hstep.2.2

/-- C10: in the backend trace of any sequence of held-state operations,
with arbitrary success or failure of the backend calls, every prefix
contains at least as many successful `key_down(k)` calls as `key_up(k)`
calls — every `key_up` is matched by a distinct earlier successful
`key_down` — and in particular a failed `key_down("w")` is never
compensated by a `key_up("w")` from a later release or `clear_all`. -/
theorem keyup_matched_by_keydown :
    (∀ (ops : List HeldOp) (k : String) (n : Nat),
      ups (((runHeld ops).2).take n) k ≤ succDowns (((runHeld ops).2).take n) k) ∧
    (runHeld failedDownOps).2 = [Ev.keyDown "w" false] := by
  constructor
  · intro ops k n
    have h := runHeldFrom_matched ops HeldState.init []
      ⟨by simp [HeldState.init], fun k hk => absurd hk (by simp [HeldState.init])⟩
      (fun k => by simp [succDowns, ups, indDown, HeldState.init])
      (fun k n => by simp [succDowns, ups])
    exact h.2.2 k n
  · decide

end Joy2
